import Mathlib

/-!
Shallow embedding of the voxel model baking core of `voxel_blocky_model.cpp`
(together with the `Vector3f` primitives of `util/math/vector3f.h`).

Machine `float` values are modelled as exact rationals (`ℚ`); the baking
pipeline is pure state-passing over explicit record types.  Fallible code
(`CRASH_COND`) is modelled with `Option`.
-/

namespace zylann.voxel

/-- Executable negation on the rational model of `float` (normalized-fraction form). -/
def fneg (a : ℚ) : ℚ := mkRat (-a.num) a.den

/-- Executable addition on the rational model of `float`. -/
def fadd (a b : ℚ) : ℚ := mkRat (a.num * b.den + b.num * a.den) (a.den * b.den)

/-- Executable subtraction on the rational model of `float`. -/
def fsub (a b : ℚ) : ℚ := fadd a (fneg b)

/-- Executable multiplication on the rational model of `float`. -/
def fmul (a b : ℚ) : ℚ := mkRat (a.num * b.num) (a.den * b.den)

/-- Executable inverse on the rational model of `float`; `finv 0 = 0`. -/
def finv (a : ℚ) : ℚ :=
  if a.num < 0 then mkRat (-(a.den : ℤ)) a.num.natAbs else mkRat a.den a.num.natAbs

/-- Executable division on the rational model of `float`. -/
def fdiv (a b : ℚ) : ℚ := fmul a (finv b)

/-- Executable rational embedding of an integer. -/
def floatOfInt (n : ℤ) : ℚ := mkRat n 1

/-- 32-bit float precision 3D vector (`util/math/vector3f.h`), floats modelled as `ℚ`. -/
structure Vector3f where
  x : ℚ
  y : ℚ
  z : ℚ
deriving DecidableEq

/-- 2D float vector (`Vector2f`), floats modelled as `ℚ`. -/
structure Vector2f where
  x : ℚ
  y : ℚ
deriving DecidableEq

def Vector3f.zero : Vector3f := ⟨0, 0, 0⟩

def Vector2f.zero : Vector2f := ⟨0, 0⟩

/-- `Vector3f::operator-` (componentwise difference). -/
def Vector3f.sub (a b : Vector3f) : Vector3f := ⟨fsub a.x b.x, fsub a.y b.y, fsub a.z b.z⟩

/-- `Vector3f::operator*(float)` (scalar multiplication). -/
def Vector3f.smul (a : Vector3f) (s : ℚ) : Vector3f := ⟨fmul a.x s, fmul a.y s, fmul a.z s⟩

/-- `Vector3f::dot`. -/
def Vector3f.dot (a b : Vector3f) : ℚ :=
  fadd (fadd (fmul a.x b.x) (fmul a.y b.y)) (fmul a.z b.z)

/-- `Vector3f::cross`. -/
def Vector3f.cross (a b : Vector3f) : Vector3f :=
  ⟨fsub (fmul a.y b.z) (fmul a.z b.y),
   fsub (fmul a.z b.x) (fmul a.x b.z),
   fsub (fmul a.x b.y) (fmul a.y b.x)⟩

/-- `Vector2f` componentwise addition. -/
def Vector2f.add (a b : Vector2f) : Vector2f := ⟨fadd a.x b.x, fadd a.y b.y⟩

/-- `Vector2f` componentwise difference. -/
def Vector2f.sub (a b : Vector2f) : Vector2f := ⟨fsub a.x b.x, fsub a.y b.y⟩

/-- `Vector2f` scalar multiplication. -/
def Vector2f.smul (a : Vector2f) (s : ℚ) : Vector2f := ⟨fmul a.x s, fmul a.y s⟩

/-- Absolute value on the rational model of `float`, written so it evaluates. -/
def float_abs (q : ℚ) : ℚ := if q < 0 then fneg q else q

/-- Modelled from the spec: the engine's `Math::is_equal_approx(a, b, tolerance)`
(absolute-tolerance comparison used by the face-plane tests of §4.3); the engine
first tests exact equality, then `|a - b| < tolerance`. -/
def is_equal_approx (a b tolerance : ℚ) : Bool := a == b || float_abs (fsub a b) < tolerance

/-- The absolute tolerance `0.001` used by `L::get_sides`. -/
def side_tolerance : ℚ := mkRat 1 1000

/-- A C++ `bool` shifted into bit position `side`, as in `mask |= cond << side`. -/
def boolBit (c : Bool) (side : Nat) : Nat := (cond c 1 0) <<< side

/-- `L::get_sides`: 6-bit mask of the unit-cube face planes `pos` lies within
tolerance of.  Bits (modelled from the spec's face enumeration, `SideAxis` not in
`src/`): 0 = x≈0, 1 = x≈1, 2 = y≈0, 3 = y≈1, 4 = z≈0, 5 = z≈1. -/
def get_sides (pos : Vector3f) : Nat :=
  boolBit (is_equal_approx pos.x 0 side_tolerance) 0 |||
  boolBit (is_equal_approx pos.x 1 side_tolerance) 1 |||
  boolBit (is_equal_approx pos.y 0 side_tolerance) 2 |||
  boolBit (is_equal_approx pos.y 1 side_tolerance) 3 |||
  boolBit (is_equal_approx pos.z 0 side_tolerance) 4 |||
  boolBit (is_equal_approx pos.z 1 side_tolerance) 5

/-- `L::get_triangle_side`: ANDs the three vertex masks; returns the side when the
combined mask equals a single bit `1 << side` (scanning sides `0..5`), else `none`. -/
def get_triangle_side (a b c : Vector3f) : Option (Fin 6) :=
  let m := get_sides a &&& get_sides b &&& get_sides c
  if m = 0 then none
  else (List.finRange 6).find? (fun side => m == 1 <<< side.val)

example : get_triangle_side ⟨0, 0, 0⟩ ⟨0, 1, 0⟩ ⟨0, 1, 1⟩ = some 0 := by decide

example : get_triangle_side ⟨0, 0, 0⟩ ⟨1, 0, 0⟩ ⟨1, 1, 1⟩ = none := by decide

/-- RGBA color with float channels modelled as `ℚ`. -/
structure Color where
  r : ℚ
  g : ℚ
  b : ℚ
  a : ℚ
deriving DecidableEq

/-- One side bucket of the baked model: `side_positions / side_indices / side_uvs /
side_tangents` for a single cube face. -/
structure SideSurface where
  positions : List Vector3f
  indices : List Nat
  uvs : List Vector2f
  tangents : List ℚ
deriving DecidableEq

/-- `VoxelBlockyModel::BakedData::Model`: six side buckets plus the interior
(`positions / indices / normals / uvs / tangents`) bucket. -/
structure BakedModel where
  sides : Fin 6 → SideSurface
  positions : List Vector3f
  indices : List Nat
  normals : List Vector3f
  uvs : List Vector2f
  tangents : List ℚ

/-- Replace one side bucket, leaving the other five untouched. -/
def BakedModel.setSide (m : BakedModel) (side : Fin 6) (s : SideSurface) : BakedModel :=
  { m with sides := fun j => if j = side then s else m.sides j }

def emptySideSurface : SideSurface := ⟨[], [], [], []⟩

def emptyBakedModel : BakedModel := ⟨fun _ => emptySideSurface, [], [], [], [], []⟩

/-- `VoxelBlockyModel::BakedData`: the baked record with its scalar fields. -/
structure BakedData where
  model : BakedModel
  empty : Bool
  material_id : Nat
  transparency_index : Nat
  color : Color

/-- Modelled from the spec: `BakedData::clear` (declared in the header, which is not
under `src/`) clears any prior baked state: all geometry buffers are reset and the
record is marked empty before a re-bake ("clear any prior baked state", §4.4). -/
def BakedData.clear (bd : BakedData) : BakedData :=
  { bd with model := emptyBakedModel, empty := true }

/-- Raw surface arrays of a source mesh, as obtained from `surface_get_arrays(0)`.
Modelled from the spec: the mesh-source provider (§6) exposes a triangle index
list, position list, normal list, UV list (optionally empty) and tangent list
(optionally empty, 4 floats per tangent). -/
structure MeshArrays where
  indices : List Nat
  positions : List Vector3f
  normals : List Vector3f
  uvs : List Vector2f
  tangents : List ℚ
deriving DecidableEq

/-- Modelled from the spec: an externally-owned `Mesh` resource; `surface_arrays =
none` models a mesh whose `surface_get_arrays(0)` comes back empty
(`arrays.size() == 0`). -/
structure Mesh where
  surface_arrays : Option MeshArrays
deriving DecidableEq

/-- `VoxelBlockyModel::GeometryType`. -/
inductive GeometryType where
  | GEOMETRY_NONE
  | GEOMETRY_CUBE
  | GEOMETRY_CUSTOM_MESH
deriving DecidableEq

/-- Axis-aligned box (position and size), modelling Godot's `AABB`. -/
structure AABB where
  position : Vector3f
  size : Vector3f
deriving DecidableEq

/-- The mutable model definition `VoxelBlockyModel` (its data fields). -/
structure VoxelBlockyModel where
  id : Int
  name : String
  material_id : Nat
  transparency_index : Nat
  color : Color
  geometry_type : GeometryType
  cube_tiles : Fin 6 → Vector2f
  custom_mesh : Option Mesh
  collision_aabbs : List AABB
  collision_mask : Nat
  random_tickable : Bool
  empty : Bool

/-- Modelled from the spec: the header's field defaults together with the
constructor `VoxelBlockyModel()` in the source (`_id(-1), _material_id(0),
_transparency_index(0), _color(1,1,1), _geometry_type(GEOMETRY_NONE)`); `is_empty`
is "true until a successful bake proves geometry exists" (§3). -/
def VoxelBlockyModel.instantiate : VoxelBlockyModel :=
  { id := -1
    name := ""
    material_id := 0
    transparency_index := 0
    color := ⟨1, 1, 1, 1⟩
    geometry_type := .GEOMETRY_NONE
    cube_tiles := fun _ => ⟨0, 0⟩
    custom_mesh := none
    collision_aabbs := []
    collision_mask := 1
    random_tickable := false
    empty := true }

/-- `VoxelBlockyModel::set_geometry_type`. -/
def set_geometry_type (m : VoxelBlockyModel) (type : GeometryType) : VoxelBlockyModel :=
  if type = m.geometry_type then m
  else
    let m := { m with geometry_type := type }
    match type with
    | .GEOMETRY_NONE => { m with collision_aabbs := [] }
    | .GEOMETRY_CUBE =>
        { m with collision_aabbs := [⟨⟨0, 0, 0⟩, ⟨1, 1, 1⟩⟩], empty := false }
    | .GEOMETRY_CUSTOM_MESH => m

/-- `VoxelBlockyModel::duplicate(p_subresources)`; the external
`Resource::duplicate` of the referenced mesh is abstracted as the parameter
`dup`. -/
def duplicate (dup : Mesh → Mesh) (m : VoxelBlockyModel) (p_subresources : Bool) :
    VoxelBlockyModel :=
  let d := { VoxelBlockyModel.instantiate with
    id := -1
    name := m.name
    material_id := m.material_id
    transparency_index := m.transparency_index
    color := m.color
    geometry_type := m.geometry_type
    cube_tiles := m.cube_tiles
    custom_mesh := m.custom_mesh
    collision_aabbs := m.collision_aabbs
    random_tickable := m.random_tickable
    empty := m.empty }
  if p_subresources then
    match d.custom_mesh with
    | some mesh => { d with custom_mesh := some (dup mesh) }
    | none => d
  else d

/-- Modelled from the spec: `Cube::g_corner_position`, the canonical corner
positions of the unit cube (the face-enumeration collaborator of §6; `cube_tables`
is not under `src/`). -/
def g_corner_position : Fin 8 → Vector3f :=
  ![⟨0, 0, 0⟩, ⟨1, 0, 0⟩, ⟨1, 0, 1⟩, ⟨0, 0, 1⟩, ⟨0, 1, 0⟩, ⟨1, 1, 0⟩, ⟨1, 1, 1⟩, ⟨0, 1, 1⟩]

/-- Modelled from the spec: `Cube::g_side_corners`, the 4 corners of each face in
the side order x≈0, x≈1, y≈0, y≈1, z≈0, z≈1 (§6). -/
def g_side_corners : Fin 6 → Fin 4 → Fin 8 :=
  ![![0, 3, 7, 4], ![2, 1, 5, 6], ![0, 1, 2, 3], ![4, 7, 6, 5], ![1, 0, 4, 5], ![3, 2, 6, 7]]

/-- Modelled from the spec: `Cube::g_side_quad_triangles`, the fixed 2-triangle
index pattern (6 indices into the 4 face corners) shared by every face (§4.2). -/
def g_side_quad_triangles : Fin 6 → Fin 6 → Nat :=
  fun _side => ![0, 1, 2, 0, 2, 3]

/-- Modelled from the spec: `Cube::g_side_tangents`, the fixed per-face tangent
table (4 floats: xyz + handedness sign), replicated per vertex (§4.2). -/
def g_side_tangents : Fin 6 → Fin 4 → ℚ :=
  ![![0, 0, -1, 1], ![0, 0, 1, 1], ![1, 0, 0, 1], ![1, 0, 0, 1], ![-1, 0, 0, 1], ![1, 0, 0, 1]]

/-- The `p.y > 0.9 → p.y = sy` adjustment applied to each cube corner in
`bake_cube_geometry` (with `sy = 1.0`). -/
def adjustCorner (p : Vector3f) : Vector3f := if mkRat 9 10 < p.y then { p with y := 1 } else p

/-- The 4 canonical corner UVs inset by the epsilon margin `e = 0.001` (the local
`uv` table of `bake_cube_geometry`). -/
def cube_corner_uv : Fin 4 → Vector2f :=
  ![⟨mkRat 1 1000, fsub 1 (mkRat 1 1000)⟩,
    ⟨fsub 1 (mkRat 1 1000), fsub 1 (mkRat 1 1000)⟩,
    ⟨fsub 1 (mkRat 1 1000), mkRat 1 1000⟩,
    ⟨mkRat 1 1000, mkRat 1 1000⟩]

/-- `bake_cube_geometry`: per side, 4 positions from the corner table (with the
`sy` height adjustment), the fixed 6-index pattern, atlas UVs
`(tile + corner_uv) * (1 / atlas_size)`, appended tangents when requested, and
`empty = false`.  The `CRASH_COND(atlas_size <= 0)` fatal precondition is
modelled as `none`. -/
def bake_cube_geometry (config : VoxelBlockyModel) (baked_data : BakedData)
    (p_atlas_size : Int) (bake_tangents : Bool) : Option BakedData :=
  if p_atlas_size ≤ 0 then none
  else
    let s : ℚ := fdiv 1 (floatOfInt p_atlas_size)
    let sides := fun side =>
      { positions :=
          (List.finRange 4).map (fun i => adjustCorner (g_corner_position (g_side_corners side i)))
        indices := (List.finRange 6).map (fun i => g_side_quad_triangles side i)
        uvs :=
          (List.finRange 4).map
            (fun i => Vector2f.smul (Vector2f.add (config.cube_tiles side) (cube_corner_uv i)) s)
        tangents :=
          (baked_data.model.sides side).tangents ++
            (if bake_tangents then
              ((List.finRange 4).map (fun _ => (List.finRange 4).map (fun j => g_side_tangents side j))).flatten
            else []) : SideSurface }
    some { baked_data with model := { baked_data.model with sides := sides }, empty := false }

/-- Mutable state of the triangle-separation loop of `bake_mesh_geometry`: the
baked model under construction plus the per-bucket welding maps
(`added_side_indices`, `added_regular_indices`), modelled as association lists
keyed by source vertex index. -/
structure MeshBakeState where
  model : BakedModel
  added_side_indices : Fin 6 → List (Nat × Nat)
  added_regular_indices : List (Nat × Nat)

/-- One iteration of the inner `j` loop for a flush triangle: weld against the
side bucket's map, appending a fresh destination vertex on a miss and reusing the
recorded destination index on a hit. -/
def pushSideVertex (bake_tangents : Bool) (tangent : List ℚ) (st : MeshBakeState)
    (side : Fin 6) (src_index : Nat) (pos : Vector3f) (uv : Vector2f) : MeshBakeState :=
  match (st.added_side_indices side).lookup src_index with
  | some existing_dst_index =>
      { st with
        model := st.model.setSide side
          { st.model.sides side with
            indices := (st.model.sides side).indices ++ [existing_dst_index] } }
  | none =>
      let surf := st.model.sides side
      let next_side_index := surf.positions.length
      { st with
        model := st.model.setSide side
          { positions := surf.positions ++ [pos]
            indices := surf.indices ++ [next_side_index]
            uvs := surf.uvs ++ [uv]
            tangents := surf.tangents ++ (if bake_tangents then tangent else []) }
        added_side_indices := fun j =>
          if j = side then st.added_side_indices side ++ [(src_index, next_side_index)]
          else st.added_side_indices j }

/-- One iteration of the inner `j` loop for an interior triangle: weld against
the regular map; a fresh destination vertex also records the source normal. -/
def pushRegularVertex (bake_tangents : Bool) (tangent : List ℚ) (st : MeshBakeState)
    (src_index : Nat) (pos normal : Vector3f) (uv : Vector2f) : MeshBakeState :=
  match st.added_regular_indices.lookup src_index with
  | some existing_dst_index =>
      { st with model := { st.model with indices := st.model.indices ++ [existing_dst_index] } }
  | none =>
      let next_regular_index := st.model.positions.length
      { st with
        model := { st.model with
          indices := st.model.indices ++ [next_regular_index]
          positions := st.model.positions ++ [pos]
          normals := st.model.normals ++ [normal]
          uvs := st.model.uvs ++ [uv]
          tangents := st.model.tangents ++ (if bake_tangents then tangent else []) }
        added_regular_indices :=
          st.added_regular_indices ++ [(src_index, next_regular_index)] }

/-- The tangent synthesized from the triangle's edge vectors and UV deltas when
the source has no tangents and tangent baking is requested (4 floats: xyz +
handedness sign). -/
def synthTangent (p0 p1 p2 : Vector3f) (uv0 uv1 uv2 : Vector2f) (n0 : Vector3f) : List ℚ :=
  let delta_uv1 := Vector2f.sub uv1 uv0
  let delta_uv2 := Vector2f.sub uv2 uv0
  let delta_pos1 := Vector3f.sub p1 p0
  let delta_pos2 := Vector3f.sub p2 p0
  let r := fdiv 1 (fsub (fmul delta_uv1.x delta_uv2.y) (fmul delta_uv1.y delta_uv2.x))
  let t := Vector3f.smul (Vector3f.sub (delta_pos1.smul delta_uv2.y) (delta_pos2.smul delta_uv1.y)) r
  let bt := Vector3f.smul (Vector3f.sub (delta_pos2.smul delta_uv1.x) (delta_pos1.smul delta_uv2.x)) r
  [t.x, t.y, t.z, if Vector3f.dot bt (Vector3f.cross n0 t) < 0 then -1 else 1]

/-- The 4 source tangent floats used for every destination vertex of triangle
number `k`: the C++ code slices at `ti = (i / 3) * 4 = 4 * k`. -/
def sourceTangentSlice (tangents : List ℚ) (k : Nat) : List ℚ :=
  [tangents.getD (4 * k) 0, tangents.getD (4 * k + 1) 0,
   tangents.getD (4 * k + 2) 0, tangents.getD (4 * k + 3) 0]

/-- The `j`-th source index of an index triple. -/
def triNth (tri : Nat × Nat × Nat) : Fin 3 → Nat :=
  fun j => match j with
  | 0 => tri.1
  | 1 => tri.2.1
  | 2 => tri.2.2

/-- The position fetched for the `j`-th vertex of a triangle
(`positions[indices[i + j]]`). -/
def triPos (positions : List Vector3f) (tri : Nat × Nat × Nat) (j : Fin 3) : Vector3f :=
  positions.getD (triNth tri j) Vector3f.zero

/-- The normal fetched for the `j`-th vertex of a triangle
(`normals[indices[i + j]]`). -/
def triNorm (normals : List Vector3f) (tri : Nat × Nat × Nat) (j : Fin 3) : Vector3f :=
  normals.getD (triNth tri j) Vector3f.zero

/-- The UV fetched for the `j`-th vertex of a triangle (`uvs[indices[i + j]]`). -/
def triUv (uvs : List Vector2f) (tri : Nat × Nat × Nat) (j : Fin 3) : Vector2f :=
  uvs.getD (triNth tri j) Vector2f.zero

/-- The tangent value computed for the triangle with number `k`: synthesized
when the source tangents are empty and baking was requested, sliced from the
source buffer otherwise. -/
def triangleTangent (bake_tangents tangents_empty : Bool)
    (positions normals : List Vector3f) (uvs : List Vector2f) (tangents : List ℚ)
    (k : Nat) (tri : Nat × Nat × Nat) : List ℚ :=
  if tangents_empty && bake_tangents then
    synthTangent (triPos positions tri 0) (triPos positions tri 1) (triPos positions tri 2)
      (triUv uvs tri 0) (triUv uvs tri 1) (triUv uvs tri 2) (triNorm normals tri 0)
  else sourceTangentSlice tangents k

/-- The flush-triangle branch of the loop body: three side-bucket pushes. -/
def processFlushTriangle (bake_tangents : Bool) (tangent : List ℚ)
    (positions : List Vector3f) (uvs : List Vector2f) (tri : Nat × Nat × Nat)
    (side : Fin 6) (st : MeshBakeState) : MeshBakeState :=
  let st := pushSideVertex bake_tangents tangent st side (triNth tri 0)
    (triPos positions tri 0) (triUv uvs tri 0)
  let st := pushSideVertex bake_tangents tangent st side (triNth tri 1)
    (triPos positions tri 1) (triUv uvs tri 1)
  pushSideVertex bake_tangents tangent st side (triNth tri 2)
    (triPos positions tri 2) (triUv uvs tri 2)

/-- The interior-triangle branch of the loop body: three interior pushes, each
carrying the vertex's source normal. -/
def processInteriorTriangle (bake_tangents : Bool) (tangent : List ℚ)
    (positions normals : List Vector3f) (uvs : List Vector2f) (tri : Nat × Nat × Nat)
    (st : MeshBakeState) : MeshBakeState :=
  let st := pushRegularVertex bake_tangents tangent st (triNth tri 0)
    (triPos positions tri 0) (triNorm normals tri 0) (triUv uvs tri 0)
  let st := pushRegularVertex bake_tangents tangent st (triNth tri 1)
    (triPos positions tri 1) (triNorm normals tri 1) (triUv uvs tri 1)
  pushRegularVertex bake_tangents tangent st (triNth tri 2)
    (triPos positions tri 2) (triNorm normals tri 2) (triUv uvs tri 2)

/-- The body of the `for (i ...; i += 3)` loop of `bake_mesh_geometry` for the
triangle with number `k` (so `i = 3 * k`) and source index triple `tri`:
classify via `get_triangle_side`, then push its three vertices into the matching
side bucket or into the interior bucket. -/
def processTriangle (bake_tangents tangents_empty : Bool)
    (positions normals : List Vector3f) (uvs : List Vector2f) (tangents : List ℚ)
    (k : Nat) (tri : Nat × Nat × Nat) (st : MeshBakeState) : MeshBakeState :=
  let tangent := triangleTangent bake_tangents tangents_empty positions normals uvs tangents k tri
  match get_triangle_side (triPos positions tri 0) (triPos positions tri 1)
      (triPos positions tri 2) with
  | some side => processFlushTriangle bake_tangents tangent positions uvs tri side st
  | none => processInteriorTriangle bake_tangents tangent positions normals uvs tri st

/-- Consecutive triples of the index list; under the `indices.size() % 3 == 0`
guard this is exactly the triangles visited by the `i += 3` loop. -/
def tripleIndices : List Nat → List (Nat × Nat × Nat)
  | a :: b :: c :: rest => (a, b, c) :: tripleIndices rest
  | _ => []

/-- The triangle-separation loop, folding `processTriangle` over the triples
with running triangle number `k`. -/
def bakeTris (bake_tangents tangents_empty : Bool)
    (positions normals : List Vector3f) (uvs : List Vector2f) (tangents : List ℚ) :
    List (Nat × Nat × Nat) → Nat → MeshBakeState → MeshBakeState
  | [], _, st => st
  | tri :: rest, k, st =>
      bakeTris bake_tangents tangents_empty positions normals uvs tangents rest (k + 1)
        (processTriangle bake_tangents tangents_empty positions normals uvs tangents k tri st)

/-- `bake_mesh_geometry`: null mesh marks the record empty; missing surface
arrays and a non-triangle index count are hard errors (`ERR_FAIL`, returning the
record as-is); the empty flag is set from the position count; absent normals are
a hard error; an empty UV array is zero-filled to the vertex count; then the
triangle-separation loop runs. -/
def bake_mesh_geometry (custom_mesh : Option Mesh) (baked_data : BakedData)
    (bake_tangents : Bool) : BakedData :=
  match custom_mesh with
  | none => { baked_data with empty := true }
  | some mesh =>
    match mesh.surface_arrays with
    | none => baked_data
    | some arr =>
      if arr.indices.length % 3 ≠ 0 then baked_data
      else
        let baked_data := { baked_data with empty := arr.positions.isEmpty }
        if arr.normals.length = 0 then baked_data
        else
          let uvs :=
            if arr.uvs.length = 0 then List.replicate arr.positions.length Vector2f.zero
            else arr.uvs
          let tangents_empty := arr.tangents.length = 0
          let st :=
            bakeTris bake_tangents tangents_empty arr.positions arr.normals uvs arr.tangents
              (tripleIndices arr.indices) 0
              { model := baked_data.model
                added_side_indices := fun _ => []
                added_regular_indices := [] }
          { baked_data with model := st.model }

/-- `VoxelBlockyModel::bake`: clear the record, copy the scalar fields, dispatch
on the geometry type, and update the definition's cached emptiness flag; the
cube baker's fatal precondition propagates as `none`. -/
def bake (m : VoxelBlockyModel) (baked_data : BakedData) (p_atlas_size : Int)
    (bake_tangents : Bool) : Option (VoxelBlockyModel × BakedData) :=
  let bd := baked_data.clear
  let bd := { bd with
    transparency_index := m.transparency_index
    material_id := m.material_id
    color := m.color }
  let dispatched : Option BakedData :=
    match m.geometry_type with
    | .GEOMETRY_NONE => some { bd with empty := true }
    | .GEOMETRY_CUBE => bake_cube_geometry m bd p_atlas_size bake_tangents
    | .GEOMETRY_CUSTOM_MESH => some (bake_mesh_geometry m.custom_mesh bd bake_tangents)
  dispatched.map (fun bd => ({ m with empty := bd.empty }, bd))

/-- A freshly constructed (all-buckets-empty) baked record. -/
def initialBakedData : BakedData := ⟨emptyBakedModel, true, 0, 0, ⟨1, 1, 1, 1⟩⟩

/-- The record produced by a bake (the input record on the fatal path). -/
def bakedRecord (m : VoxelBlockyModel) (bd : BakedData) (n : Int) (bt : Bool) : BakedData :=
  ((bake m bd n bt).map Prod.snd).getD bd

/-- The model definition as updated by a bake (the input on the fatal path). -/
def bakedDefinition (m : VoxelBlockyModel) (bd : BakedData) (n : Int) (bt : Bool) :
    VoxelBlockyModel :=
  ((bake m bd n bt).map Prod.fst).getD m

/-- Welding-loop invariant for one side bucket: indices and recorded destination
indices stay below the bucket's vertex count. -/
def SideInv (st : MeshBakeState) (side : Fin 6) : Prop :=
  (∀ d ∈ (st.model.sides side).indices, d < (st.model.sides side).positions.length) ∧
  (∀ q ∈ st.added_side_indices side, q.2 < (st.model.sides side).positions.length)

/-- Welding-loop invariant for the interior bucket. -/
def RegInv (st : MeshBakeState) : Prop :=
  (∀ d ∈ st.model.indices, d < st.model.positions.length) ∧
  (∀ q ∈ st.added_regular_indices, q.2 < st.model.positions.length)

/-- Per-vertex-step invariant of the triangle loop. -/
def InvCore (st : MeshBakeState) : Prop :=
  (∀ side, SideInv st side) ∧ RegInv st

/-- Full invariant at triangle boundaries: index bounds plus triangle-list
divisibility. -/
def LoopInv (st : MeshBakeState) : Prop :=
  InvCore st ∧ (∀ side, (st.model.sides side).indices.length % 3 = 0) ∧
    st.model.indices.length % 3 = 0

/-- The bucket invariant claimed for baked records: every index below the
bucket's vertex count, index count divisible by 3, in all seven buckets. -/
def bucketsWellFormed (bd : BakedData) : Prop :=
  (∀ side : Fin 6,
    (∀ d ∈ (bd.model.sides side).indices, d < (bd.model.sides side).positions.length) ∧
    (bd.model.sides side).indices.length % 3 = 0) ∧
  (∀ d ∈ bd.model.indices, d < bd.model.positions.length) ∧
  bd.model.indices.length % 3 = 0

/-- No bucket of the record holds any geometry. -/
def allBucketsEmpty (bd : BakedData) : Prop :=
  (∀ side : Fin 6, bd.model.sides side = emptySideSurface) ∧
  bd.model.positions = [] ∧ bd.model.indices = [] ∧ bd.model.normals = [] ∧
  bd.model.uvs = [] ∧ bd.model.tangents = []

/-- Total vertex count over the six side buckets and the interior bucket. -/
def totalBucketVertices (bd : BakedData) : Nat :=
  ((List.finRange 6).map fun side => (bd.model.sides side).positions.length).sum +
    bd.model.positions.length

/-- The value the code actually stores in the baked record's `empty` flag
(amended claim C5): it depends only on the geometry kind and the source arrays,
never on how many vertices the buckets received. -/
def bakedEmptyFlagSpec (m : VoxelBlockyModel) : Bool :=
  match m.geometry_type with
  | .GEOMETRY_NONE => true
  | .GEOMETRY_CUBE => false
  | .GEOMETRY_CUSTOM_MESH =>
    match m.custom_mesh with
    | none => true
    | some mesh =>
      match mesh.surface_arrays with
      | none => true
      | some arr => decide (arr.indices.length % 3 ≠ 0) || arr.positions.isEmpty

/-- A quad flush on the `x = 0` face: two triangles sharing the source vertices
0 and 2. -/
def quadMesh : Mesh :=
  ⟨some
    { indices := [0, 1, 2, 0, 2, 3]
      positions := [⟨0, 0, 0⟩, ⟨0, 1, 0⟩, ⟨0, 1, 1⟩, ⟨0, 0, 1⟩]
      normals := [⟨-1, 0, 0⟩, ⟨-1, 0, 0⟩, ⟨-1, 0, 0⟩, ⟨-1, 0, 0⟩]
      uvs := [⟨0, 0⟩, ⟨0, 1⟩, ⟨1, 1⟩, ⟨1, 0⟩]
      tangents := [] }⟩

/-- One triangle flush on `x = 0` and one interior triangle, sharing source
vertex 0. -/
def weldSplitMesh : Mesh :=
  ⟨some
    { indices := [0, 1, 2, 0, 3, 4]
      positions :=
        [⟨0, 0, 0⟩, ⟨0, 1, 0⟩, ⟨0, 1, 1⟩, ⟨mkRat 1 2, 0, 0⟩, ⟨mkRat 1 2, 1, 1⟩]
      normals := [⟨-1, 0, 0⟩, ⟨-1, 0, 0⟩, ⟨-1, 0, 0⟩, ⟨0, 0, 1⟩, ⟨0, 0, 1⟩]
      uvs := [⟨0, 0⟩, ⟨0, 1⟩, ⟨1, 1⟩, ⟨1, 0⟩, ⟨1, 1⟩]
      tangents := [] }⟩

/-- A mesh with one position and normal but no triangles (counterexample input
for claim C5). -/
def c5Mesh : Mesh :=
  ⟨some
    { indices := []
      positions := [⟨0, 0, 0⟩]
      normals := [⟨0, 1, 0⟩]
      uvs := []
      tangents := [] }⟩

/-- A custom-mesh model wrapping `c5Mesh`. -/
def c5Model : VoxelBlockyModel :=
  { VoxelBlockyModel.instantiate with
    geometry_type := .GEOMETRY_CUSTOM_MESH, custom_mesh := some c5Mesh }

/-- A source tangent buffer whose 4-float slices differ per vertex. -/
def c7Tangents : List ℚ := [1, 0, 0, 1, 0, 1, 0, 1, 0, 0, 1, -1]

/-- Positions of an interior (no-face) triangle. -/
def c7Positions : List Vector3f :=
  [⟨mkRat 1 2, mkRat 1 2, mkRat 1 2⟩, ⟨mkRat 1 4, mkRat 1 2, mkRat 1 2⟩,
   ⟨mkRat 1 2, mkRat 1 4, mkRat 1 2⟩]

def c7Normals : List Vector3f := [⟨0, 0, 1⟩, ⟨0, 0, 1⟩, ⟨0, 0, 1⟩]

def c7Uvs : List Vector2f := [⟨0, 0⟩, ⟨1, 0⟩, ⟨0, 1⟩]

/-- An interior triangle whose source tangent array has a different 4-float
slice for each of its three vertices (counterexample input for claim C7). -/
def c7Mesh : Mesh :=
  ⟨some
    { indices := [0, 1, 2]
      positions := c7Positions
      normals := c7Normals
      uvs := c7Uvs
      tangents := c7Tangents }⟩

/-- The initial state of the triangle-separation loop over a cleared record. -/
def emptyBakeState : MeshBakeState := ⟨emptyBakedModel, fun _ => [], []⟩

/-- A mesh whose index count is not a multiple of 3 (hard-error input for C6). -/
def badIndexCountMesh : Mesh :=
  ⟨some
    { indices := [0]
      positions := [⟨0, 0, 0⟩]
      normals := [⟨0, 1, 0⟩]
      uvs := []
      tangents := [] }⟩

/-- A mesh with positions but no normals (hard-error input for C6). -/
def noNormalsMesh : Mesh :=
  ⟨some
    { indices := [0, 1, 2]
      positions := [⟨0, 0, 0⟩, ⟨0, 1, 0⟩, ⟨0, 1, 1⟩]
      normals := []
      uvs := [⟨0, 0⟩, ⟨0, 1⟩, ⟨1, 1⟩]
      tangents := [] }⟩

/-- A custom-mesh model wrapping `badIndexCountMesh`. -/
def badIndexCountModel : VoxelBlockyModel :=
  { VoxelBlockyModel.instantiate with
    geometry_type := .GEOMETRY_CUSTOM_MESH, custom_mesh := some badIndexCountMesh }

/-- A cube-geometry model with default tiles. -/
def cubeModel : VoxelBlockyModel :=
  { VoxelBlockyModel.instantiate with geometry_type := .GEOMETRY_CUBE }

/-- A cube-geometry model whose cached emptiness flag is `false` (counterexample
input for claim C9). -/
def c9Model : VoxelBlockyModel :=
  { VoxelBlockyModel.instantiate with
    geometry_type := .GEOMETRY_CUBE
    collision_aabbs := [⟨⟨0, 0, 0⟩, ⟨1, 1, 1⟩⟩]
    empty := false }

/-- A custom-mesh model wrapping `weldSplitMesh`. -/
def weldSplitModel : VoxelBlockyModel :=
  { VoxelBlockyModel.instantiate with
    geometry_type := .GEOMETRY_CUSTOM_MESH, custom_mesh := some weldSplitMesh }

theorem lookup_mem {l : List (Nat × Nat)} {a b : Nat} (h : l.lookup a = some b) :
    (a, b) ∈ l := by
  rcases List.lookup_eq_some_iff.mp h with ⟨l₁, l₂, rfl, -⟩
  simp

theorem pushSideVertex_frame (bt : Bool) (tan : List ℚ) (st : MeshBakeState) (side : Fin 6)
    (src : Nat) (p : Vector3f) (uv : Vector2f) :
    (pushSideVertex bt tan st side src p uv).model.positions = st.model.positions ∧
    (pushSideVertex bt tan st side src p uv).model.indices = st.model.indices ∧
    (pushSideVertex bt tan st side src p uv).model.normals = st.model.normals ∧
    (pushSideVertex bt tan st side src p uv).model.uvs = st.model.uvs ∧
    (pushSideVertex bt tan st side src p uv).model.tangents = st.model.tangents ∧
    (pushSideVertex bt tan st side src p uv).added_regular_indices = st.added_regular_indices := by
  unfold pushSideVertex
  split <;> simp [BakedModel.setSide]

theorem pushSideVertex_sides_ne (bt : Bool) (tan : List ℚ) (st : MeshBakeState) (side : Fin 6)
    (src : Nat) (p : Vector3f) (uv : Vector2f) (j : Fin 6) (hj : j ≠ side) :
    (pushSideVertex bt tan st side src p uv).model.sides j = st.model.sides j ∧
    (pushSideVertex bt tan st side src p uv).added_side_indices j = st.added_side_indices j := by
  unfold pushSideVertex
  split <;> simp [BakedModel.setSide, hj]

theorem pushSideVertex_cases (bt : Bool) (tan : List ℚ) (st : MeshBakeState) (side : Fin 6)
    (src : Nat) (p : Vector3f) (uv : Vector2f) :
    (∃ d, (st.added_side_indices side).lookup src = some d ∧
      (pushSideVertex bt tan st side src p uv).model.sides side =
        { st.model.sides side with indices := (st.model.sides side).indices ++ [d] } ∧
      (pushSideVertex bt tan st side src p uv).added_side_indices side =
        st.added_side_indices side) ∨
    ((st.added_side_indices side).lookup src = none ∧
      (pushSideVertex bt tan st side src p uv).model.sides side =
        { positions := (st.model.sides side).positions ++ [p]
          indices := (st.model.sides side).indices ++ [(st.model.sides side).positions.length]
          uvs := (st.model.sides side).uvs ++ [uv]
          tangents := (st.model.sides side).tangents ++ (if bt then tan else []) } ∧
      (pushSideVertex bt tan st side src p uv).added_side_indices side =
        st.added_side_indices side ++ [(src, (st.model.sides side).positions.length)]) := by
  rcases h : (st.added_side_indices side).lookup src with - | d
  · right
    refine ⟨rfl, ?_, ?_⟩ <;> simp [pushSideVertex, h, BakedModel.setSide]
  · left
    exact ⟨d, rfl, by simp [pushSideVertex, h, BakedModel.setSide], by simp [pushSideVertex, h]⟩

theorem pushRegularVertex_sides (bt : Bool) (tan : List ℚ) (st : MeshBakeState) (src : Nat)
    (p nrm : Vector3f) (uv : Vector2f) :
    (pushRegularVertex bt tan st src p nrm uv).model.sides = st.model.sides ∧
    (pushRegularVertex bt tan st src p nrm uv).added_side_indices = st.added_side_indices := by
  unfold pushRegularVertex
  split <;> simp

theorem pushRegularVertex_cases (bt : Bool) (tan : List ℚ) (st : MeshBakeState) (src : Nat)
    (p nrm : Vector3f) (uv : Vector2f) :
    (∃ d, st.added_regular_indices.lookup src = some d ∧
      (pushRegularVertex bt tan st src p nrm uv).model =
        { st.model with indices := st.model.indices ++ [d] } ∧
      (pushRegularVertex bt tan st src p nrm uv).added_regular_indices =
        st.added_regular_indices) ∨
    (st.added_regular_indices.lookup src = none ∧
      (pushRegularVertex bt tan st src p nrm uv).model =
        { st.model with
          indices := st.model.indices ++ [st.model.positions.length]
          positions := st.model.positions ++ [p]
          normals := st.model.normals ++ [nrm]
          uvs := st.model.uvs ++ [uv]
          tangents := st.model.tangents ++ (if bt then tan else []) } ∧
      (pushRegularVertex bt tan st src p nrm uv).added_regular_indices =
        st.added_regular_indices ++ [(src, st.model.positions.length)]) := by
  rcases h : st.added_regular_indices.lookup src with - | d
  · right
    refine ⟨rfl, ?_, ?_⟩ <;> simp [pushRegularVertex, h]
  · left
    exact ⟨d, rfl, by simp [pushRegularVertex, h], by simp [pushRegularVertex, h]⟩

theorem pushSideVertex_sideInv (bt : Bool) (tan : List ℚ) (st : MeshBakeState) (side : Fin 6)
    (src : Nat) (p : Vector3f) (uv : Vector2f) (j : Fin 6) (h : SideInv st j) :
    SideInv (pushSideVertex bt tan st side src p uv) j := by
  obtain ⟨h1, h2⟩ := h
  by_cases hj : j = side
  · subst hj
    rcases pushSideVertex_cases bt tan st j src p uv with ⟨d, hd, hs, ha⟩ | ⟨hn, hs, ha⟩
    · constructor
      · rw [hs]
        dsimp only
        simp only [List.mem_append, List.mem_singleton]
        rintro d' (h' | rfl)
        · exact h1 d' h'
        · exact h2 _ (lookup_mem hd)
      · rw [ha, hs]
        exact h2
    · constructor
      · rw [hs]
        dsimp only
        simp only [List.mem_append, List.mem_singleton, List.length_append,
          List.length_singleton]
        rintro d' (h' | rfl)
        · have := h1 d' h'
          omega
        · omega
      · rw [ha, hs]
        dsimp only
        simp only [List.mem_append, List.mem_singleton, List.length_append,
          List.length_singleton]
        rintro q (h' | rfl)
        · have := h2 q h'
          omega
        · omega
  · obtain ⟨hs, ha⟩ := pushSideVertex_sides_ne bt tan st side src p uv j hj
    exact ⟨by rw [hs]; exact h1, by rw [ha, hs]; exact h2⟩

theorem pushSideVertex_regInv (bt : Bool) (tan : List ℚ) (st : MeshBakeState) (side : Fin 6)
    (src : Nat) (p : Vector3f) (uv : Vector2f) (h : RegInv st) :
    RegInv (pushSideVertex bt tan st side src p uv) := by
  obtain ⟨hp, hi, -, -, -, hr⟩ := pushSideVertex_frame bt tan st side src p uv
  exact ⟨by rw [hi, hp]; exact h.1, by rw [hr, hp]; exact h.2⟩

theorem pushRegularVertex_sideInv (bt : Bool) (tan : List ℚ) (st : MeshBakeState) (src : Nat)
    (p nrm : Vector3f) (uv : Vector2f) (j : Fin 6) (h : SideInv st j) :
    SideInv (pushRegularVertex bt tan st src p nrm uv) j := by
  obtain ⟨hs, ha⟩ := pushRegularVertex_sides bt tan st src p nrm uv
  exact ⟨by rw [hs]; exact h.1, by rw [ha, hs]; exact h.2⟩

theorem pushRegularVertex_regInv (bt : Bool) (tan : List ℚ) (st : MeshBakeState) (src : Nat)
    (p nrm : Vector3f) (uv : Vector2f) (h : RegInv st) :
    RegInv (pushRegularVertex bt tan st src p nrm uv) := by
  obtain ⟨h1, h2⟩ := h
  rcases pushRegularVertex_cases bt tan st src p nrm uv with ⟨d, hd, hm, ha⟩ | ⟨hn, hm, ha⟩
  · constructor
    · rw [hm]
      dsimp only
      simp only [List.mem_append, List.mem_singleton]
      rintro d' (h' | rfl)
      · exact h1 d' h'
      · exact h2 _ (lookup_mem hd)
    · rw [ha, hm]
      exact h2
  · constructor
    · rw [hm]
      dsimp only
      simp only [List.mem_append, List.mem_singleton, List.length_append,
        List.length_singleton]
      rintro d' (h' | rfl)
      · have := h1 d' h'
        omega
      · omega
    · rw [ha, hm]
      dsimp only
      simp only [List.mem_append, List.mem_singleton, List.length_append,
        List.length_singleton]
      rintro q (h' | rfl)
      · have := h2 q h'
        omega
      · omega

theorem pushSideVertex_invCore (bt : Bool) (tan : List ℚ) (st : MeshBakeState) (side : Fin 6)
    (src : Nat) (p : Vector3f) (uv : Vector2f) (h : InvCore st) :
    InvCore (pushSideVertex bt tan st side src p uv) :=
  ⟨fun j => pushSideVertex_sideInv bt tan st side src p uv j (h.1 j),
   pushSideVertex_regInv bt tan st side src p uv h.2⟩

theorem pushRegularVertex_invCore (bt : Bool) (tan : List ℚ) (st : MeshBakeState) (src : Nat)
    (p nrm : Vector3f) (uv : Vector2f) (h : InvCore st) :
    InvCore (pushRegularVertex bt tan st src p nrm uv) :=
  ⟨fun j => pushRegularVertex_sideInv bt tan st src p nrm uv j (h.1 j),
   pushRegularVertex_regInv bt tan st src p nrm uv h.2⟩

theorem pushSideVertex_len (bt : Bool) (tan : List ℚ) (st : MeshBakeState) (side : Fin 6)
    (src : Nat) (p : Vector3f) (uv : Vector2f) (j : Fin 6) :
    ((pushSideVertex bt tan st side src p uv).model.sides j).indices.length =
      (st.model.sides j).indices.length + (if j = side then 1 else 0) := by
  by_cases hj : j = side
  · subst hj
    rcases pushSideVertex_cases bt tan st j src p uv with ⟨d, -, hs, -⟩ | ⟨-, hs, -⟩ <;>
      rw [hs] <;> simp
  · rw [(pushSideVertex_sides_ne bt tan st side src p uv j hj).1]
    simp [hj]

theorem pushRegularVertex_len (bt : Bool) (tan : List ℚ) (st : MeshBakeState) (src : Nat)
    (p nrm : Vector3f) (uv : Vector2f) :
    (pushRegularVertex bt tan st src p nrm uv).model.indices.length =
      st.model.indices.length + 1 := by
  rcases pushRegularVertex_cases bt tan st src p nrm uv with ⟨d, -, hm, -⟩ | ⟨-, hm, -⟩ <;>
    rw [hm] <;> simp

theorem processFlushTriangle_loopInv (bt : Bool) (tan : List ℚ) (ps : List Vector3f)
    (us : List Vector2f) (tri : Nat × Nat × Nat) (side : Fin 6) (st : MeshBakeState)
    (h : LoopInv st) : LoopInv (processFlushTriangle bt tan ps us tri side st) := by
  obtain ⟨hcore, hsides, hreg⟩ := h
  unfold processFlushTriangle
  refine ⟨?_, ?_, ?_⟩
  · exact pushSideVertex_invCore _ _ _ _ _ _ _
      (pushSideVertex_invCore _ _ _ _ _ _ _
        (pushSideVertex_invCore _ _ _ _ _ _ _ hcore))
  · intro j
    rw [pushSideVertex_len, pushSideVertex_len, pushSideVertex_len]
    have := hsides j
    by_cases hj : j = side
    · subst hj
      simp only [if_pos rfl]
      omega
    · simp only [if_neg hj]
      omega
  · rw [(pushSideVertex_frame _ _ _ _ _ _ _).2.1, (pushSideVertex_frame _ _ _ _ _ _ _).2.1,
      (pushSideVertex_frame _ _ _ _ _ _ _).2.1]
    exact hreg

theorem processInteriorTriangle_loopInv (bt : Bool) (tan : List ℚ) (ps ns : List Vector3f)
    (us : List Vector2f) (tri : Nat × Nat × Nat) (st : MeshBakeState)
    (h : LoopInv st) : LoopInv (processInteriorTriangle bt tan ps ns us tri st) := by
  obtain ⟨hcore, hsides, hreg⟩ := h
  unfold processInteriorTriangle
  refine ⟨?_, ?_, ?_⟩
  · exact pushRegularVertex_invCore _ _ _ _ _ _ _
      (pushRegularVertex_invCore _ _ _ _ _ _ _
        (pushRegularVertex_invCore _ _ _ _ _ _ _ hcore))
  · intro j
    rw [(pushRegularVertex_sides _ _ _ _ _ _ _).1, (pushRegularVertex_sides _ _ _ _ _ _ _).1,
      (pushRegularVertex_sides _ _ _ _ _ _ _).1]
    exact hsides j
  · rw [pushRegularVertex_len, pushRegularVertex_len, pushRegularVertex_len]
    omega

theorem processTriangle_loopInv (bt te : Bool) (ps ns : List Vector3f) (us : List Vector2f)
    (ts : List ℚ) (k : Nat) (tri : Nat × Nat × Nat) (st : MeshBakeState) (h : LoopInv st) :
    LoopInv (processTriangle bt te ps ns us ts k tri st) := by
  simp only [processTriangle]
  rcases hclass : get_triangle_side (triPos ps tri 0) (triPos ps tri 1) (triPos ps tri 2)
    with - | side
  · simp only [hclass]
    exact processInteriorTriangle_loopInv _ _ _ _ _ _ _ h
  · simp only [hclass]
    exact processFlushTriangle_loopInv _ _ _ _ _ _ _ h

theorem bakeTris_loopInv (bt te : Bool) (ps ns : List Vector3f) (us : List Vector2f)
    (ts : List ℚ) (l : List (Nat × Nat × Nat)) :
    ∀ (k : Nat) (st : MeshBakeState), LoopInv st →
      LoopInv (bakeTris bt te ps ns us ts l k st) := by
  induction l with
  | nil => intro k st h; simpa [bakeTris] using h
  | cons tri rest ih =>
    intro k st h
    simp only [bakeTris]
    exact ih _ _ (processTriangle_loopInv bt te ps ns us ts k tri st h)

theorem bucketsWellFormed_of_empty {bd : BakedData} (h : bd.model = emptyBakedModel) :
    bucketsWellFormed bd := by
  refine ⟨fun side => ⟨?_, ?_⟩, ?_, ?_⟩ <;> simp [h, emptyBakedModel, emptySideSurface]

theorem bake_mesh_geometry_wellFormed (mesh : Option Mesh) (bd : BakedData) (bt : Bool)
    (h : bd.model = emptyBakedModel) : bucketsWellFormed (bake_mesh_geometry mesh bd bt) := by
  unfold bake_mesh_geometry
  split
  · exact bucketsWellFormed_of_empty (by simpa using h)
  · split
    · exact bucketsWellFormed_of_empty h
    · split
      · exact bucketsWellFormed_of_empty h
      · split
        · exact bucketsWellFormed_of_empty (by simpa using h)
        · have h0 : LoopInv
              { model := bd.model
                added_side_indices := fun _ => []
                added_regular_indices := [] } := by
            refine ⟨⟨fun side => ⟨?_, ?_⟩, ?_, ?_⟩, fun side => ?_, ?_⟩ <;>
              simp [h, emptyBakedModel, emptySideSurface]
          obtain ⟨⟨hsi, hri⟩, hs3, hr3⟩ := bakeTris_loopInv _ _ _ _ _ _ _ _ _ h0
          exact ⟨fun side => ⟨(hsi side).1, hs3 side⟩, hri.1, hr3⟩

/-- C4: After any bake (cube or custom mesh, any input mesh), every bucket of the
baked record (each of the six face buckets and the interior bucket) satisfies:
every entry of its index list is strictly less than that bucket's vertex-position
count, and its index list length is divisible by 3. -/
theorem C4_baked_index_invariant (m : VoxelBlockyModel) (bd : BakedData) (n : Int) (bt : Bool)
    (m' : VoxelBlockyModel) (bd' : BakedData) (h : bake m bd n bt = some (m', bd')) :
    bucketsWellFormed bd' := by
  unfold bake at h
  rcases hg : m.geometry_type with - | - | - <;> rw [hg] at h <;> dsimp only at h
  · rw [Option.map_some', Option.some.injEq, Prod.mk.injEq] at h
    obtain ⟨-, hbd⟩ := h
    subst hbd
    exact bucketsWellFormed_of_empty rfl
  · unfold bake_cube_geometry at h
    split at h
    · simp at h
    · rw [Option.map_some', Option.some.injEq, Prod.mk.injEq] at h
      obtain ⟨-, hbd⟩ := h
      subst hbd
      have hidx : ∀ side : Fin 6,
          ∀ d ∈ (List.finRange 6).map (fun i => g_side_quad_triangles side i), d < 4 := by
        decide
      refine ⟨fun side => ⟨?_, ?_⟩, ?_, ?_⟩
      · show ∀ d ∈ (List.finRange 6).map (fun i => g_side_quad_triangles side i),
          d < ((List.finRange 4).map fun i =>
            adjustCorner (g_corner_position (g_side_corners side i))).length
        simpa using hidx side
      · show ((List.finRange 6).map fun i => g_side_quad_triangles side i).length % 3 = 0
        simp
      · show ∀ d ∈ ([] : List Nat), d < ([] : List Vector3f).length
        simp
      · show ([] : List Nat).length % 3 = 0
        rfl
  · rw [Option.map_some', Option.some.injEq, Prod.mk.injEq] at h
    obtain ⟨-, hbd⟩ := h
    subst hbd
    exact bake_mesh_geometry_wellFormed _ _ _ rfl

/-- Witness for C4 at a concrete bake. -/
theorem C4_witness :
    bucketsWellFormed (bakedRecord VoxelBlockyModel.instantiate initialBakedData 1 false) :=
  C4_baked_index_invariant VoxelBlockyModel.instantiate initialBakedData 1 false
    (bakedDefinition VoxelBlockyModel.instantiate initialBakedData 1 false)
    (bakedRecord VoxelBlockyModel.instantiate initialBakedData 1 false) rfl

theorem get_sides_testBit (p : Vector3f) :
    (get_sides p).testBit 0 = is_equal_approx p.x 0 side_tolerance ∧
    (get_sides p).testBit 1 = is_equal_approx p.x 1 side_tolerance ∧
    (get_sides p).testBit 2 = is_equal_approx p.y 0 side_tolerance ∧
    (get_sides p).testBit 3 = is_equal_approx p.y 1 side_tolerance ∧
    (get_sides p).testBit 4 = is_equal_approx p.z 0 side_tolerance ∧
    (get_sides p).testBit 5 = is_equal_approx p.z 1 side_tolerance ∧
    get_sides p < 64 := by
  unfold get_sides boolBit
  cases is_equal_approx p.x 0 side_tolerance <;>
    cases is_equal_approx p.x 1 side_tolerance <;>
    cases is_equal_approx p.y 0 side_tolerance <;>
    cases is_equal_approx p.y 1 side_tolerance <;>
    cases is_equal_approx p.z 0 side_tolerance <;>
    cases is_equal_approx p.z 1 side_tolerance <;> decide

theorem get_triangle_side_spec (a b c : Vector3f) :
    ((get_triangle_side a b c).isSome ↔
      ∃ s : Fin 6, get_sides a &&& get_sides b &&& get_sides c = 1 <<< s.val) ∧
    ∀ s, get_triangle_side a b c = some s →
      get_sides a &&& get_sides b &&& get_sides c = 1 <<< s.val := by
  constructor
  · constructor
    · intro hs
      unfold get_triangle_side at hs
      by_cases hm : (get_sides a &&& get_sides b &&& get_sides c) = 0
      · rw [if_pos hm] at hs
        simp at hs
      · rw [if_neg hm] at hs
        obtain ⟨s, -, hp⟩ := List.find?_isSome.mp hs
        exact ⟨s, by simpa using hp⟩
    · rintro ⟨s, hs⟩
      unfold get_triangle_side
      have hne : (get_sides a &&& get_sides b &&& get_sides c) ≠ 0 := by
        rw [hs, Nat.shiftLeft_eq]
        have := Nat.pos_pow_of_pos (n := 2) s.val (by omega)
        omega
      rw [if_neg hne]
      exact List.find?_isSome.mpr ⟨s, List.mem_finRange s, by simpa using hs⟩
  · intro s hsome
    unfold get_triangle_side at hsome
    by_cases hm : (get_sides a &&& get_sides b &&& get_sides c) = 0
    · rw [if_pos hm] at hsome
      exact absurd hsome (by simp)
    · rw [if_neg hm] at hsome
      have := List.find?_some hsome
      simpa using this

theorem pushRegularVertex_extend (bt : Bool) (tan : List ℚ) (st : MeshBakeState) (src : Nat)
    (p nrm : Vector3f) (uv : Vector2f) :
    ∃ L : List (Vector3f × Vector3f),
      (pushRegularVertex bt tan st src p nrm uv).model.positions =
        st.model.positions ++ L.map Prod.fst ∧
      (pushRegularVertex bt tan st src p nrm uv).model.normals =
        st.model.normals ++ L.map Prod.snd ∧
      (∀ pr ∈ L, pr = (p, nrm)) := by
  rcases pushRegularVertex_cases bt tan st src p nrm uv with ⟨d, -, hm, -⟩ | ⟨-, hm, -⟩
  · exact ⟨[], by rw [hm]; simp, by rw [hm]; simp, by simp⟩
  · exact ⟨[(p, nrm)], by rw [hm]; simp, by rw [hm]; simp, by simp⟩

theorem processInteriorTriangle_spec (bt : Bool) (tan : List ℚ) (ps ns : List Vector3f)
    (us : List Vector2f) (tri : Nat × Nat × Nat) (st : MeshBakeState) :
    (processInteriorTriangle bt tan ps ns us tri st).model.sides = st.model.sides ∧
    (processInteriorTriangle bt tan ps ns us tri st).added_side_indices =
      st.added_side_indices ∧
    ∃ L : List (Vector3f × Vector3f),
      (processInteriorTriangle bt tan ps ns us tri st).model.positions =
        st.model.positions ++ L.map Prod.fst ∧
      (processInteriorTriangle bt tan ps ns us tri st).model.normals =
        st.model.normals ++ L.map Prod.snd ∧
      (∀ pr ∈ L, pr = (triPos ps tri 0, triNorm ns tri 0) ∨
        pr = (triPos ps tri 1, triNorm ns tri 1) ∨
        pr = (triPos ps tri 2, triNorm ns tri 2)) ∧
      (processInteriorTriangle bt tan ps ns us tri st).model.indices.length =
        st.model.indices.length + 3 := by
  unfold processInteriorTriangle
  obtain ⟨L1, h1p, h1n, h1m⟩ := pushRegularVertex_extend bt tan st (triNth tri 0)
    (triPos ps tri 0) (triNorm ns tri 0) (triUv us tri 0)
  obtain ⟨L2, h2p, h2n, h2m⟩ := pushRegularVertex_extend bt tan
    (pushRegularVertex bt tan st (triNth tri 0) (triPos ps tri 0) (triNorm ns tri 0)
      (triUv us tri 0))
    (triNth tri 1) (triPos ps tri 1) (triNorm ns tri 1) (triUv us tri 1)
  obtain ⟨L3, h3p, h3n, h3m⟩ := pushRegularVertex_extend bt tan
    (pushRegularVertex bt tan
      (pushRegularVertex bt tan st (triNth tri 0) (triPos ps tri 0) (triNorm ns tri 0)
        (triUv us tri 0))
      (triNth tri 1) (triPos ps tri 1) (triNorm ns tri 1) (triUv us tri 1))
    (triNth tri 2) (triPos ps tri 2) (triNorm ns tri 2) (triUv us tri 2)
  refine ⟨?_, ?_, L1 ++ L2 ++ L3, ?_, ?_, ?_, ?_⟩
  · rw [(pushRegularVertex_sides _ _ _ _ _ _ _).1, (pushRegularVertex_sides _ _ _ _ _ _ _).1,
      (pushRegularVertex_sides _ _ _ _ _ _ _).1]
  · rw [(pushRegularVertex_sides _ _ _ _ _ _ _).2, (pushRegularVertex_sides _ _ _ _ _ _ _).2,
      (pushRegularVertex_sides _ _ _ _ _ _ _).2]
  · rw [h3p, h2p, h1p]
    simp [List.append_assoc]
  · rw [h3n, h2n, h1n]
    simp [List.append_assoc]
  · intro pr hpr
    rcases List.mem_append.mp hpr with hpr' | hpr3
    · rcases List.mem_append.mp hpr' with hpr1 | hpr2
      · exact Or.inl (h1m pr hpr1)
      · exact Or.inr (Or.inl (h2m pr hpr2))
    · exact Or.inr (Or.inr (h3m pr hpr3))
  · rw [pushRegularVertex_len, pushRegularVertex_len, pushRegularVertex_len]

/-- C1: For every triangle of a custom mesh, the baker computes for each of its
3 vertices a 6-bit mask of the unit-cube face planes (x=0, x=1, y=0, y=1, z=0,
z=1, bits 0..5) the vertex lies within absolute tolerance 0.001 of, ANDs the
three masks, and classifies the triangle as flush on a single face exactly when
the combined mask has exactly one bit set; with zero or more than one bit set
the triangle is classified interior and its vertices go only to the interior
bucket (with normals preserved), never to a face bucket. -/
theorem C1_triangle_face_classification :
    (∀ p : Vector3f,
      (get_sides p).testBit 0 = is_equal_approx p.x 0 side_tolerance ∧
      (get_sides p).testBit 1 = is_equal_approx p.x 1 side_tolerance ∧
      (get_sides p).testBit 2 = is_equal_approx p.y 0 side_tolerance ∧
      (get_sides p).testBit 3 = is_equal_approx p.y 1 side_tolerance ∧
      (get_sides p).testBit 4 = is_equal_approx p.z 0 side_tolerance ∧
      (get_sides p).testBit 5 = is_equal_approx p.z 1 side_tolerance) ∧
    (∀ a b c : Vector3f,
      ((get_triangle_side a b c).isSome ↔
        ∃ s : Fin 6, get_sides a &&& get_sides b &&& get_sides c = 1 <<< s.val) ∧
      ∀ s, get_triangle_side a b c = some s →
        get_sides a &&& get_sides b &&& get_sides c = 1 <<< s.val) ∧
    (∀ (bt te : Bool) (ps ns : List Vector3f) (us : List Vector2f) (ts : List ℚ)
      (k : Nat) (tri : Nat × Nat × Nat) (st : MeshBakeState),
      get_triangle_side (triPos ps tri 0) (triPos ps tri 1) (triPos ps tri 2) = none →
      (processTriangle bt te ps ns us ts k tri st).model.sides = st.model.sides ∧
      (processTriangle bt te ps ns us ts k tri st).added_side_indices =
        st.added_side_indices ∧
      ∃ L : List (Vector3f × Vector3f),
        (processTriangle bt te ps ns us ts k tri st).model.positions =
          st.model.positions ++ L.map Prod.fst ∧
        (processTriangle bt te ps ns us ts k tri st).model.normals =
          st.model.normals ++ L.map Prod.snd ∧
        (∀ pr ∈ L, pr = (triPos ps tri 0, triNorm ns tri 0) ∨
          pr = (triPos ps tri 1, triNorm ns tri 1) ∨
          pr = (triPos ps tri 2, triNorm ns tri 2)) ∧
        (processTriangle bt te ps ns us ts k tri st).model.indices.length =
          st.model.indices.length + 3) := by
  refine ⟨?_, ?_, ?_⟩
  · intro p
    obtain ⟨h0, h1, h2, h3, h4, h5, -⟩ := get_sides_testBit p
    exact ⟨h0, h1, h2, h3, h4, h5⟩
  · exact get_triangle_side_spec
  · intro bt te ps ns us ts k tri st hclass
    have hpt : processTriangle bt te ps ns us ts k tri st =
        processInteriorTriangle bt
          (triangleTangent bt te ps ns us ts k tri) ps ns us tri st := by
      simp only [processTriangle, hclass]
    rw [hpt]
    exact processInteriorTriangle_spec _ _ _ _ _ _ _

/-- Witness for C1: a triangle spanning two cube faces is classified interior
and routed to the interior bucket only. -/
theorem C1_witness :
    (processTriangle false false [⟨0, 0, 0⟩, ⟨1, 0, 0⟩, ⟨1, 1, 1⟩] [⟨0, 1, 0⟩, ⟨0, 1, 0⟩, ⟨0, 1, 0⟩]
        [⟨0, 0⟩, ⟨0, 1⟩, ⟨1, 1⟩] [] 0 (0, 1, 2)
        { model := emptyBakedModel, added_side_indices := fun _ => [],
          added_regular_indices := [] }).model.sides =
      ({ model := emptyBakedModel, added_side_indices := fun _ => [],
          added_regular_indices := [] } : MeshBakeState).model.sides :=
  ((C1_triangle_face_classification.2.2 false false
    [⟨0, 0, 0⟩, ⟨1, 0, 0⟩, ⟨1, 1, 1⟩] [⟨0, 1, 0⟩, ⟨0, 1, 0⟩, ⟨0, 1, 0⟩]
    [⟨0, 0⟩, ⟨0, 1⟩, ⟨1, 1⟩] [] 0 (0, 1, 2)
    { model := emptyBakedModel, added_side_indices := fun _ => [],
      added_regular_indices := [] } (by decide))).1

/-- C2: Vertex welding in the mesh baker is per destination bucket and keyed by
source vertex index: the first time a source index is referenced within a bucket
a new destination vertex (position, UV, normal if interior, tangent if enabled)
is appended and the mapping recorded; every later reference to the same source
index within the same bucket reuses the recorded destination index (so two
triangles sharing 2 source vertices in one bucket share exactly 2 destination
vertices), while the same source vertex referenced from a flush triangle and
from an interior triangle yields two independent destination vertices, one per
bucket. -/
theorem C2_vertex_welding :
    (∀ (bt : Bool) (tan : List ℚ) (st : MeshBakeState) (side : Fin 6) (src : Nat)
      (p : Vector3f) (uv : Vector2f) (d : Nat),
      (st.added_side_indices side).lookup src = some d →
      (pushSideVertex bt tan st side src p uv).model.sides side =
        { st.model.sides side with indices := (st.model.sides side).indices ++ [d] } ∧
      (pushSideVertex bt tan st side src p uv).added_side_indices side =
        st.added_side_indices side) ∧
    (∀ (bt : Bool) (tan : List ℚ) (st : MeshBakeState) (side : Fin 6) (src : Nat)
      (p : Vector3f) (uv : Vector2f),
      (st.added_side_indices side).lookup src = none →
      (pushSideVertex bt tan st side src p uv).model.sides side =
        { positions := (st.model.sides side).positions ++ [p]
          indices := (st.model.sides side).indices ++ [(st.model.sides side).positions.length]
          uvs := (st.model.sides side).uvs ++ [uv]
          tangents := (st.model.sides side).tangents ++ (if bt then tan else []) } ∧
      (pushSideVertex bt tan st side src p uv).added_side_indices side =
        st.added_side_indices side ++ [(src, (st.model.sides side).positions.length)]) ∧
    (∀ (bt : Bool) (tan : List ℚ) (st : MeshBakeState) (src : Nat) (p nrm : Vector3f)
      (uv : Vector2f) (d : Nat),
      st.added_regular_indices.lookup src = some d →
      (pushRegularVertex bt tan st src p nrm uv).model =
        { st.model with indices := st.model.indices ++ [d] } ∧
      (pushRegularVertex bt tan st src p nrm uv).added_regular_indices =
        st.added_regular_indices) ∧
    (∀ (bt : Bool) (tan : List ℚ) (st : MeshBakeState) (src : Nat) (p nrm : Vector3f)
      (uv : Vector2f),
      st.added_regular_indices.lookup src = none →
      (pushRegularVertex bt tan st src p nrm uv).model =
        { st.model with
          indices := st.model.indices ++ [st.model.positions.length]
          positions := st.model.positions ++ [p]
          normals := st.model.normals ++ [nrm]
          uvs := st.model.uvs ++ [uv]
          tangents := st.model.tangents ++ (if bt then tan else []) } ∧
      (pushRegularVertex bt tan st src p nrm uv).added_regular_indices =
        st.added_regular_indices ++ [(src, st.model.positions.length)]) ∧
    (((bake_mesh_geometry (some quadMesh) initialBakedData false).model.sides 0).positions.length = 4 ∧
      ((bake_mesh_geometry (some quadMesh) initialBakedData false).model.sides 0).indices =
        [0, 1, 2, 0, 2, 3] ∧
      (bake_mesh_geometry (some quadMesh) initialBakedData false).model.positions = []) ∧
    (((bake_mesh_geometry (some weldSplitMesh) initialBakedData false).model.sides 0).positions.length = 3 ∧
      (bake_mesh_geometry (some weldSplitMesh) initialBakedData false).model.positions.length = 3 ∧
      ((bake_mesh_geometry (some weldSplitMesh) initialBakedData false).model.sides 0).positions.getD 0
          Vector3f.zero = ⟨0, 0, 0⟩ ∧
      (bake_mesh_geometry (some weldSplitMesh) initialBakedData false).model.positions.getD 0
          Vector3f.zero = ⟨0, 0, 0⟩) := by
  refine ⟨?_, ?_, ?_, ?_, by decide, by decide⟩
  · intro bt tan st side src p uv d h
    constructor <;> simp [pushSideVertex, h, BakedModel.setSide]
  · intro bt tan st side src p uv h
    constructor <;> simp [pushSideVertex, h, BakedModel.setSide]
  · intro bt tan st src p nrm uv d h
    constructor <;> simp [pushRegularVertex, h]
  · intro bt tan st src p nrm uv h
    constructor <;> simp [pushRegularVertex, h]

/-- Witness for C2: a fresh source index appended to an empty side bucket
records the mapping to destination index 0. -/
theorem C2_witness :
    (pushSideVertex false []
        { model := emptyBakedModel, added_side_indices := fun _ => [],
          added_regular_indices := [] } 0 5 ⟨0, 0, 0⟩ ⟨0, 0⟩).added_side_indices 0 = [(5, 0)] := by
  have h := (C2_vertex_welding.2.1 false []
    { model := emptyBakedModel, added_side_indices := fun _ => [],
      added_regular_indices := [] } 0 5 ⟨0, 0, 0⟩ ⟨0, 0⟩ (by decide)).2
  simpa using h

/-- C3: For every atlas size n > 0, baking a Cube-geometry model emits for each
of the six faces exactly 4 vertex positions taken from the fixed shared corner
table and exactly 6 indices from the fixed 2-triangle pattern, computes each
face's 4 UVs as (face tile coordinate + canonical corner UV inset by epsilon
0.001) divided by n, and marks the baked record non-empty unconditionally; atlas
size <= 0 is a fatal precondition violation. -/
theorem C3_cube_bake (m : VoxelBlockyModel) (bd : BakedData) (n : Int) (bt : Bool) :
    (0 < n →
      ∃ bd', bake_cube_geometry m bd n bt = some bd' ∧
        bd'.empty = false ∧
        ∀ side : Fin 6,
          (bd'.model.sides side).positions =
            (List.finRange 4).map (fun i => g_corner_position (g_side_corners side i)) ∧
          (bd'.model.sides side).indices =
            (List.finRange 6).map (fun i => g_side_quad_triangles side i) ∧
          (bd'.model.sides side).uvs =
            (List.finRange 4).map (fun i =>
              Vector2f.smul (Vector2f.add (m.cube_tiles side) (cube_corner_uv i))
                (fdiv 1 (floatOfInt n)))) ∧
    (n ≤ 0 → bake_cube_geometry m bd n bt = none) := by
  constructor
  · intro hn
    unfold bake_cube_geometry
    rw [if_neg (by omega : ¬ n ≤ 0)]
    have hpos : ∀ side : Fin 6,
        (List.finRange 4).map
            (fun i => adjustCorner (g_corner_position (g_side_corners side i))) =
          (List.finRange 4).map (fun i => g_corner_position (g_side_corners side i)) := by
      decide
    exact ⟨_, rfl, rfl, fun side => ⟨hpos side, rfl, rfl⟩⟩
  · intro hle
    unfold bake_cube_geometry
    rw [if_pos hle]

/-- Witness for C3: atlas size 4 succeeds, atlas size -1 is fatal. -/
theorem C3_witness :
    bake_cube_geometry cubeModel initialBakedData (-1) false = none ∧
    (bake_cube_geometry cubeModel initialBakedData 4 false).isSome = true := by
  constructor
  · exact (C3_cube_bake cubeModel initialBakedData (-1) false).2 (by decide)
  · obtain ⟨bd', hbd', -⟩ := (C3_cube_bake cubeModel initialBakedData 4 false).1 (by decide)
    rw [hbd']
    rfl

theorem bake_mesh_geometry_empty (mesh : Option Mesh) (bd : BakedData) (bt : Bool)
    (h : bd.empty = true) :
    (bake_mesh_geometry mesh bd bt).empty =
      match mesh with
      | none => true
      | some mesh =>
        match mesh.surface_arrays with
        | none => true
        | some arr => decide (arr.indices.length % 3 ≠ 0) || arr.positions.isEmpty := by
  rcases mesh with - | mesh
  · simp [bake_mesh_geometry]
  rcases harr : mesh.surface_arrays with - | arr
  · simp [bake_mesh_geometry, harr, h]
  by_cases h3 : arr.indices.length % 3 ≠ 0
  · simp [bake_mesh_geometry, harr, h3, h]
  · by_cases hnrm : arr.normals.length = 0 <;>
      simp [bake_mesh_geometry, harr, h3, hnrm]

/-- C5 counterexample: a custom mesh with one position, a normal, and no
triangles bakes to a record with zero vertices in every bucket whose `empty`
flag is nevertheless `false` — so `is_empty` is not true "exactly when baking
produced zero vertices across all buckets, or the geometry kind was None, or
the custom mesh source reference was missing". -/
theorem C5_counterexample_empty_flag :
    totalBucketVertices (bakedRecord c5Model initialBakedData 1 false) = 0 ∧
    (bakedRecord c5Model initialBakedData 1 false).empty = false ∧
    c5Model.geometry_type = GeometryType.GEOMETRY_CUSTOM_MESH ∧
    c5Model.custom_mesh.isSome = true := by
  decide

/-- C5 (amended): The baked record's is_empty flag depends only on the geometry
kind and the source arrays: it is true exactly when the geometry kind is None,
or (for CustomMesh) the mesh reference is missing, the mesh has no surface
arrays, the index count is not a multiple of 3, or the source position array is
empty — never on how many vertices the buckets received; in particular
geometry_kind == None always yields is_empty == true and zero vertices in every
bucket regardless of every other field value. -/
theorem C5_empty_flag_amended (m : VoxelBlockyModel) (bd : BakedData) (n : Int) (bt : Bool)
    (m' : VoxelBlockyModel) (bd' : BakedData) (h : bake m bd n bt = some (m', bd')) :
    bd'.empty = bakedEmptyFlagSpec m ∧
    (m.geometry_type = .GEOMETRY_NONE → bd'.empty = true ∧ totalBucketVertices bd' = 0) := by
  unfold bake at h
  rcases hg : m.geometry_type with - | - | - <;> rw [hg] at h <;> dsimp only at h
  · rw [Option.map_some', Option.some.injEq, Prod.mk.injEq] at h
    obtain ⟨-, hbd⟩ := h
    subst hbd
    exact ⟨by simp [bakedEmptyFlagSpec, hg], fun _ => ⟨rfl, rfl⟩⟩
  · unfold bake_cube_geometry at h
    split at h
    · simp at h
    · rw [Option.map_some', Option.some.injEq, Prod.mk.injEq] at h
      obtain ⟨-, hbd⟩ := h
      subst hbd
      refine ⟨by simp [bakedEmptyFlagSpec, hg], ?_⟩
      intro hx
      exact absurd hx (by decide)
  · rw [Option.map_some', Option.some.injEq, Prod.mk.injEq] at h
    obtain ⟨-, hbd⟩ := h
    subst hbd
    refine ⟨?_, ?_⟩
    · rw [bake_mesh_geometry_empty _ _ _ rfl]
      simp only [bakedEmptyFlagSpec, hg]
    · intro hx
      exact absurd hx (by decide)

/-- Witness for C5 (amended) at a concrete None-geometry bake. -/
theorem C5_witness :
    (bakedRecord VoxelBlockyModel.instantiate initialBakedData 1 false).empty =
      bakedEmptyFlagSpec VoxelBlockyModel.instantiate ∧
    totalBucketVertices (bakedRecord VoxelBlockyModel.instantiate initialBakedData 1 false) = 0 := by
  have h := C5_empty_flag_amended VoxelBlockyModel.instantiate initialBakedData 1 false
    (bakedDefinition VoxelBlockyModel.instantiate initialBakedData 1 false)
    (bakedRecord VoxelBlockyModel.instantiate initialBakedData 1 false) rfl
  exact ⟨h.1, (h.2 rfl).2⟩

theorem allBucketsEmpty_of_empty {bd : BakedData} (h : bd.model = emptyBakedModel) :
    allBucketsEmpty bd := by
  refine ⟨fun side => ?_, ?_, ?_, ?_, ?_, ?_⟩ <;> simp [h, emptyBakedModel, emptySideSurface]

/-- C6: Baking a custom mesh fails with a hard error, aborting that model's bake
and leaving no bucket geometry populated, when the index list length is not a
multiple of 3 or when the normal array is absent; whereas a present-but-empty UV
array does not fail: it is replaced by a zero-filled UV array of the mesh's
vertex count and baking proceeds. -/
theorem C6_mesh_error_handling :
    (∀ (m : VoxelBlockyModel) (bd : BakedData) (n : Int) (bt : Bool) (mesh : Mesh)
      (arr : MeshArrays) (m' : VoxelBlockyModel) (bd' : BakedData),
      m.geometry_type = .GEOMETRY_CUSTOM_MESH → m.custom_mesh = some mesh →
      mesh.surface_arrays = some arr →
      (arr.indices.length % 3 ≠ 0 ∨ arr.normals = []) →
      bake m bd n bt = some (m', bd') → allBucketsEmpty bd') ∧
    (∀ (mesh : Mesh) (arr : MeshArrays) (bd : BakedData) (bt : Bool),
      mesh.surface_arrays = some arr → arr.uvs = [] →
      bake_mesh_geometry (some mesh) bd bt =
        bake_mesh_geometry
          (some ⟨some { arr with uvs := List.replicate arr.positions.length Vector2f.zero }⟩)
          bd bt) := by
  refine ⟨?_, ?_⟩
  · intro m bd n bt mesh arr m' bd' hgt hcm harr herr h
    unfold bake at h
    rw [hgt] at h
    dsimp only at h
    rw [Option.map_some', Option.some.injEq, Prod.mk.injEq] at h
    obtain ⟨-, hbd⟩ := h
    subst hbd
    apply allBucketsEmpty_of_empty
    rw [hcm]
    by_cases h3 : arr.indices.length % 3 ≠ 0
    · simp [bake_mesh_geometry, BakedData.clear, harr, h3]
    · rcases herr with h3' | hn
      · exact absurd h3' h3
      · have hn0 : arr.normals.length = 0 := by rw [hn]; rfl
        simp [bake_mesh_geometry, BakedData.clear, harr, h3, hn0]
  · intro mesh arr bd bt harr huv
    obtain ⟨sa⟩ := mesh
    have hsa : sa = some arr := harr
    subst hsa
    by_cases h3 : arr.indices.length % 3 ≠ 0
    · simp [bake_mesh_geometry, h3]
    · by_cases hnrm : arr.normals.length = 0
      · simp [bake_mesh_geometry, h3, hnrm]
      · simp [bake_mesh_geometry, h3, hnrm, huv]

/-- Witness for C6: a 1-entry index list aborts the bake with every bucket left
empty. -/
theorem C6_witness :
    allBucketsEmpty (bakedRecord badIndexCountModel initialBakedData 1 false) :=
  C6_mesh_error_handling.1 badIndexCountModel initialBakedData 1 false badIndexCountMesh _
    (bakedDefinition badIndexCountModel initialBakedData 1 false)
    (bakedRecord badIndexCountModel initialBakedData 1 false)
    rfl rfl rfl (Or.inl (by decide)) rfl

theorem flatten_replicate_nil (n : Nat) : (List.replicate n ([] : List ℚ)).flatten = [] := by
  induction n with
  | zero => rfl
  | succ k ih => simp [List.replicate_succ, ih]

theorem tangents_append_chain {t0 : List ℚ} {l0 l1 l2 l3 : Nat} (e : List ℚ)
    (h01 : l0 ≤ l1) (h12 : l1 ≤ l2) (h23 : l2 ≤ l3) :
    ((t0 ++ (List.replicate (l1 - l0) e).flatten) ++ (List.replicate (l2 - l1) e).flatten) ++
        (List.replicate (l3 - l2) e).flatten =
      t0 ++ (List.replicate (l3 - l0) e).flatten := by
  have h : l3 - l0 = (l1 - l0) + ((l2 - l1) + (l3 - l2)) := by omega
  rw [h, List.replicate_add, List.replicate_add, List.flatten_append, List.flatten_append,
    List.append_assoc, List.append_assoc]

theorem pushSideVertex_posLen (bt : Bool) (tan : List ℚ) (st : MeshBakeState) (side : Fin 6)
    (src : Nat) (p : Vector3f) (uv : Vector2f) (j : Fin 6) :
    (st.model.sides j).positions.length ≤
      ((pushSideVertex bt tan st side src p uv).model.sides j).positions.length := by
  by_cases hj : j = side
  · subst hj
    rcases pushSideVertex_cases bt tan st j src p uv with ⟨d, -, hs, -⟩ | ⟨-, hs, -⟩ <;>
      (rw [hs]; try simp)
  · rw [(pushSideVertex_sides_ne bt tan st side src p uv j hj).1]

theorem pushRegularVertex_posLen (bt : Bool) (tan : List ℚ) (st : MeshBakeState) (src : Nat)
    (p nrm : Vector3f) (uv : Vector2f) :
    st.model.positions.length ≤
      (pushRegularVertex bt tan st src p nrm uv).model.positions.length := by
  rcases pushRegularVertex_cases bt tan st src p nrm uv with ⟨d, -, hm, -⟩ | ⟨-, hm, -⟩ <;>
    (rw [hm]; try simp)

theorem pushSideVertex_tangents (bt : Bool) (tan : List ℚ) (st : MeshBakeState) (side : Fin 6)
    (src : Nat) (p : Vector3f) (uv : Vector2f) (j : Fin 6) :
    ((pushSideVertex bt tan st side src p uv).model.sides j).tangents =
      (st.model.sides j).tangents ++
        (List.replicate
          (((pushSideVertex bt tan st side src p uv).model.sides j).positions.length -
            (st.model.sides j).positions.length) (if bt then tan else [])).flatten := by
  by_cases hj : j = side
  · subst hj
    rcases pushSideVertex_cases bt tan st j src p uv with ⟨d, -, hs, -⟩ | ⟨-, hs, -⟩ <;>
      rw [hs] <;> simp [Nat.add_sub_cancel_left]
  · rw [(pushSideVertex_sides_ne bt tan st side src p uv j hj).1]
    simp

theorem pushRegularVertex_tangents (bt : Bool) (tan : List ℚ) (st : MeshBakeState) (src : Nat)
    (p nrm : Vector3f) (uv : Vector2f) :
    (pushRegularVertex bt tan st src p nrm uv).model.tangents =
      st.model.tangents ++
        (List.replicate
          ((pushRegularVertex bt tan st src p nrm uv).model.positions.length -
            st.model.positions.length) (if bt then tan else [])).flatten := by
  rcases pushRegularVertex_cases bt tan st src p nrm uv with ⟨d, -, hm, -⟩ | ⟨-, hm, -⟩ <;>
    rw [hm] <;> simp [Nat.add_sub_cancel_left]

theorem processFlushTriangle_tangents (bt : Bool) (tan : List ℚ) (ps : List Vector3f)
    (us : List Vector2f) (tri : Nat × Nat × Nat) (side : Fin 6) (st : MeshBakeState)
    (j : Fin 6) :
    ((processFlushTriangle bt tan ps us tri side st).model.sides j).tangents =
      (st.model.sides j).tangents ++
        (List.replicate
          (((processFlushTriangle bt tan ps us tri side st).model.sides j).positions.length -
            (st.model.sides j).positions.length) (if bt then tan else [])).flatten := by
  unfold processFlushTriangle
  rw [pushSideVertex_tangents, pushSideVertex_tangents, pushSideVertex_tangents]
  exact tangents_append_chain _ (pushSideVertex_posLen _ _ _ _ _ _ _ _)
    (pushSideVertex_posLen _ _ _ _ _ _ _ _) (pushSideVertex_posLen _ _ _ _ _ _ _ _)

theorem processFlushTriangle_interior (bt : Bool) (tan : List ℚ) (ps : List Vector3f)
    (us : List Vector2f) (tri : Nat × Nat × Nat) (side : Fin 6) (st : MeshBakeState) :
    (processFlushTriangle bt tan ps us tri side st).model.positions = st.model.positions ∧
    (processFlushTriangle bt tan ps us tri side st).model.tangents = st.model.tangents := by
  unfold processFlushTriangle
  constructor
  · rw [(pushSideVertex_frame _ _ _ _ _ _ _).1, (pushSideVertex_frame _ _ _ _ _ _ _).1,
      (pushSideVertex_frame _ _ _ _ _ _ _).1]
  · rw [(pushSideVertex_frame _ _ _ _ _ _ _).2.2.2.2.1,
      (pushSideVertex_frame _ _ _ _ _ _ _).2.2.2.2.1,
      (pushSideVertex_frame _ _ _ _ _ _ _).2.2.2.2.1]

theorem processInteriorTriangle_tangents (bt : Bool) (tan : List ℚ) (ps ns : List Vector3f)
    (us : List Vector2f) (tri : Nat × Nat × Nat) (st : MeshBakeState) :
    (processInteriorTriangle bt tan ps ns us tri st).model.tangents =
      st.model.tangents ++
        (List.replicate
          ((processInteriorTriangle bt tan ps ns us tri st).model.positions.length -
            st.model.positions.length) (if bt then tan else [])).flatten := by
  unfold processInteriorTriangle
  rw [pushRegularVertex_tangents, pushRegularVertex_tangents, pushRegularVertex_tangents]
  exact tangents_append_chain _ (pushRegularVertex_posLen _ _ _ _ _ _ _)
    (pushRegularVertex_posLen _ _ _ _ _ _ _) (pushRegularVertex_posLen _ _ _ _ _ _ _)

theorem processTriangle_tangents_off (te : Bool) (ps ns : List Vector3f) (us : List Vector2f)
    (ts : List ℚ) (k : Nat) (tri : Nat × Nat × Nat) (st : MeshBakeState) :
    (∀ j : Fin 6, ((processTriangle false te ps ns us ts k tri st).model.sides j).tangents =
      (st.model.sides j).tangents) ∧
    (processTriangle false te ps ns us ts k tri st).model.tangents = st.model.tangents := by
  simp only [processTriangle]
  rcases hclass : get_triangle_side (triPos ps tri 0) (triPos ps tri 1) (triPos ps tri 2)
    with - | side <;> simp only [hclass]
  · constructor
    · intro j
      rw [congrFun (processInteriorTriangle_spec _ _ _ _ _ _ _).1 j]
    · rw [processInteriorTriangle_tangents]
      simp [flatten_replicate_nil]
  · constructor
    · intro j
      rw [processFlushTriangle_tangents]
      simp [flatten_replicate_nil]
    · exact (processFlushTriangle_interior _ _ _ _ _ _ _).2

theorem bakeTris_tangents_off (te : Bool) (ps ns : List Vector3f) (us : List Vector2f)
    (ts : List ℚ) (l : List (Nat × Nat × Nat)) :
    ∀ (k : Nat) (st : MeshBakeState),
      (∀ j : Fin 6, ((bakeTris false te ps ns us ts l k st).model.sides j).tangents =
        (st.model.sides j).tangents) ∧
      (bakeTris false te ps ns us ts l k st).model.tangents = st.model.tangents := by
  induction l with
  | nil => intro k st; exact ⟨fun j => rfl, rfl⟩
  | cons tri rest ih =>
    intro k st
    simp only [bakeTris]
    obtain ⟨hs, hi⟩ := processTriangle_tangents_off te ps ns us ts k tri st
    obtain ⟨ihs, ihi⟩ := ih (k + 1) (processTriangle false te ps ns us ts k tri st)
    exact ⟨fun j => (ihs j).trans (hs j), ihi.trans hi⟩

theorem bake_mesh_geometry_tangents_off (mesh : Option Mesh) (bd : BakedData) (j : Fin 6) :
    ((bake_mesh_geometry mesh bd false).model.sides j).tangents =
      (bd.model.sides j).tangents ∧
    (bake_mesh_geometry mesh bd false).model.tangents = bd.model.tangents := by
  rcases mesh with - | mesh
  · exact ⟨rfl, rfl⟩
  obtain ⟨sa⟩ := mesh
  rcases sa with - | arr
  · exact ⟨rfl, rfl⟩
  by_cases h3 : arr.indices.length % 3 ≠ 0
  · constructor <;> simp [bake_mesh_geometry, h3]
  · by_cases hnrm : arr.normals.length = 0
    · constructor <;> simp [bake_mesh_geometry, h3, hnrm]
    · obtain ⟨hs, hi⟩ := bakeTris_tangents_off (decide (arr.tangents.length = 0))
        arr.positions arr.normals
        (if arr.uvs.length = 0 then List.replicate arr.positions.length Vector2f.zero
          else arr.uvs)
        arr.tangents (tripleIndices arr.indices) 0
        { model := bd.model, added_side_indices := fun _ => [], added_regular_indices := [] }
      constructor
      · simpa [bake_mesh_geometry, h3, hnrm] using hs j
      · simpa [bake_mesh_geometry, h3, hnrm] using hi

/-- C7 counterexample: baking `c7Mesh` (one interior triangle, source tangents
with a different 4-float slice per vertex) with tangent baking on gives every
destination vertex the slice at offset 4 * (triangle index) = 0; in particular
the second destination vertex — whose source vertex is 1, as the index list
shows — receives [1, 0, 0, 1] instead of its per-source-vertex slice
[0, 1, 0, 1], refuting "the appropriate 4 tangent floats for that specific
source vertex". -/
theorem C7_counterexample_tangent_slice :
    ((bake_mesh_geometry (some c7Mesh) initialBakedData true).model.tangents.drop 4).take 4 =
      [1, 0, 0, 1] ∧
    ((c7Tangents.drop 4).take 4 = [0, 1, 0, 1] ∧ ([1, 0, 0, 1] : List ℚ) ≠ [0, 1, 0, 1]) ∧
    (bake_mesh_geometry (some c7Mesh) initialBakedData true).model.indices = [0, 1, 2] := by
  decide

/-- C7 (amended): When tangent baking is requested and the source mesh provides
a tangent array, every destination vertex created for the triangle with number k
receives the 4 tangent floats sliced at offset 4 * k of the source tangent
buffer — the slice is keyed by triangle index, the same for all three vertices
of the triangle, not by source vertex; when tangent baking is not requested, no
tangent data is emitted into any bucket regardless of whether the source
provides tangents. -/
theorem C7_tangent_sourcing_amended :
    (∀ (ps ns : List Vector3f) (us : List Vector2f) (ts : List ℚ) (k : Nat)
      (tri : Nat × Nat × Nat) (st : MeshBakeState),
      ts ≠ [] →
      (∀ j : Fin 6,
        ((processTriangle true (decide (ts.length = 0)) ps ns us ts k tri st).model.sides
            j).tangents =
          (st.model.sides j).tangents ++
            (List.replicate
              (((processTriangle true (decide (ts.length = 0)) ps ns us ts k tri
                  st).model.sides j).positions.length -
                (st.model.sides j).positions.length)
              (sourceTangentSlice ts k)).flatten) ∧
      (processTriangle true (decide (ts.length = 0)) ps ns us ts k tri st).model.tangents =
        st.model.tangents ++
          (List.replicate
            ((processTriangle true (decide (ts.length = 0)) ps ns us ts k tri
                st).model.positions.length - st.model.positions.length)
            (sourceTangentSlice ts k)).flatten) ∧
    (∀ (mesh : Option Mesh) (bd : BakedData) (j : Fin 6),
      ((bake_mesh_geometry mesh bd false).model.sides j).tangents =
        (bd.model.sides j).tangents ∧
      (bake_mesh_geometry mesh bd false).model.tangents = bd.model.tangents) := by
  refine ⟨?_, bake_mesh_geometry_tangents_off⟩
  intro ps ns us ts k tri st hts
  have hte : (decide (ts.length = 0)) = false := by
    rcases ts with - | ⟨hd, tl⟩
    · exact absurd rfl hts
    · rfl
  rw [hte]
  have htan : triangleTangent true false ps ns us ts k tri = sourceTangentSlice ts k := rfl
  constructor
  · intro j
    simp only [processTriangle, htan]
    rcases hclass : get_triangle_side (triPos ps tri 0) (triPos ps tri 1) (triPos ps tri 2)
      with - | side <;> simp only [hclass]
    · rw [congrFun (processInteriorTriangle_spec _ _ _ _ _ _ _).1 j]
      simp
    · have h := processFlushTriangle_tangents true (sourceTangentSlice ts k) ps us tri side st j
      simpa using h
  · simp only [processTriangle, htan]
    rcases hclass : get_triangle_side (triPos ps tri 0) (triPos ps tri 1) (triPos ps tri 2)
      with - | side <;> simp only [hclass]
    · have h := processInteriorTriangle_tangents true (sourceTangentSlice ts k) ps ns us tri st
      simpa using h
    · rw [(processFlushTriangle_interior _ _ _ _ _ _ _).2,
        (processFlushTriangle_interior _ _ _ _ _ _ _).1]
      simp

/-- Witness for C7 (amended): the interior triangle of `c7Mesh` appends exactly
its triangle-indexed tangent slices. -/
theorem C7_witness :
    (processTriangle true (decide (c7Tangents.length = 0)) c7Positions c7Normals c7Uvs
        c7Tangents 0 (0, 1, 2) emptyBakeState).model.tangents =
      emptyBakeState.model.tangents ++
        (List.replicate
          ((processTriangle true (decide (c7Tangents.length = 0)) c7Positions c7Normals c7Uvs
              c7Tangents 0 (0, 1, 2) emptyBakeState).model.positions.length -
            emptyBakeState.model.positions.length)
          (sourceTangentSlice c7Tangents 0)).flatten :=
  (C7_tangent_sourcing_amended.1 c7Positions c7Normals c7Uvs c7Tangents 0 (0, 1, 2)
    emptyBakeState (by decide)).2

theorem bake_mesh_geometry_scalars (mesh : Option Mesh) (bd : BakedData) (bt : Bool) :
    (bake_mesh_geometry mesh bd bt).material_id = bd.material_id ∧
    (bake_mesh_geometry mesh bd bt).transparency_index = bd.transparency_index ∧
    (bake_mesh_geometry mesh bd bt).color = bd.color := by
  rcases mesh with - | mesh
  · exact ⟨rfl, rfl, rfl⟩
  obtain ⟨sa⟩ := mesh
  rcases sa with - | arr
  · exact ⟨rfl, rfl, rfl⟩
  by_cases h3 : arr.indices.length % 3 ≠ 0
  · refine ⟨?_, ?_, ?_⟩ <;> simp [bake_mesh_geometry, h3]
  · by_cases hnrm : arr.normals.length = 0 <;>
      refine ⟨?_, ?_, ?_⟩ <;> simp [bake_mesh_geometry, h3, hnrm]

/-- C8: A call to bake() leaves every field of the model definition unchanged
except the cached emptiness flag, which is set to the freshly baked record's
emptiness; the record is cleared first and receives copies of the definition's
material id, transparency index, and color before geometry dispatch (so the
result does not depend on the incoming record's prior contents). -/
theorem C8_bake_frame_effect (m : VoxelBlockyModel) (bd : BakedData) (n : Int) (bt : Bool)
    (m' : VoxelBlockyModel) (bd' : BakedData) (h : bake m bd n bt = some (m', bd')) :
    m'.id = m.id ∧ m'.name = m.name ∧ m'.material_id = m.material_id ∧
    m'.transparency_index = m.transparency_index ∧ m'.color = m.color ∧
    m'.geometry_type = m.geometry_type ∧ m'.cube_tiles = m.cube_tiles ∧
    m'.custom_mesh = m.custom_mesh ∧ m'.collision_aabbs = m.collision_aabbs ∧
    m'.collision_mask = m.collision_mask ∧ m'.random_tickable = m.random_tickable ∧
    m'.empty = bd'.empty ∧
    bd'.material_id = m.material_id ∧ bd'.transparency_index = m.transparency_index ∧
    bd'.color = m.color ∧
    (∀ bd₂ : BakedData, bake m bd₂ n bt = bake m bd n bt) := by
  have hscal : bd'.material_id = m.material_id ∧ bd'.transparency_index = m.transparency_index ∧
      bd'.color = m.color := by
    unfold bake at h
    rw [Option.map_eq_some'] at h
    obtain ⟨a, ha, heq⟩ := h
    rw [Prod.mk.injEq] at heq
    obtain ⟨-, hbd⟩ := heq
    subst hbd
    rcases hg : m.geometry_type with - | - | - <;> rw [hg] at ha <;> dsimp only at ha
    · rw [Option.some.injEq] at ha
      subst ha
      exact ⟨rfl, rfl, rfl⟩
    · unfold bake_cube_geometry at ha
      split at ha
      · simp at ha
      · rw [Option.some.injEq] at ha
        subst ha
        exact ⟨rfl, rfl, rfl⟩
    · rw [Option.some.injEq] at ha
      subst ha
      exact bake_mesh_geometry_scalars _ _ _
  unfold bake at h
  rw [Option.map_eq_some'] at h
  obtain ⟨a, -, heq⟩ := h
  rw [Prod.mk.injEq] at heq
  obtain ⟨hm, hbd⟩ := heq
  subst hm
  subst hbd
  exact ⟨rfl, rfl, rfl, rfl, rfl, rfl, rfl, rfl, rfl, rfl, rfl, rfl,
    hscal.1, hscal.2.1, hscal.2.2, fun bd₂ => rfl⟩

/-- Witness for C8 at a concrete cube bake. -/
theorem C8_witness :
    (bakedDefinition cubeModel initialBakedData 4 false).material_id = cubeModel.material_id ∧
    (bakedRecord cubeModel initialBakedData 4 false).color = cubeModel.color := by
  obtain ⟨-, -, h3, -, -, -, -, -, -, -, -, -, -, -, h15, -⟩ :=
    C8_bake_frame_effect cubeModel initialBakedData 4 false
      (bakedDefinition cubeModel initialBakedData 4 false)
      (bakedRecord cubeModel initialBakedData 4 false) rfl
  exact ⟨h3, h15⟩

/-- C9 counterexample: switching a Cube-geometry model whose cached emptiness
flag is false to None clears the collision boxes but leaves the emptiness flag
untouched (still false, though a None model has no geometry) — so the flag is
not updated on every kind switch. -/
theorem C9_counterexample_empty_not_updated :
    (set_geometry_type c9Model .GEOMETRY_NONE).geometry_type = .GEOMETRY_NONE ∧
    (set_geometry_type c9Model .GEOMETRY_NONE).collision_aabbs = [] ∧
    (set_geometry_type c9Model .GEOMETRY_NONE).empty = false ∧
    c9Model.empty = false :=
  ⟨rfl, rfl, rfl, rfl⟩

/-- C9 (amended): Switching the model's geometry kind to a different value
resets shape-dependent state: switching to None clears the collision box list,
switching to Cube replaces the collision boxes with a single full-unit box,
switching to CustomMesh leaves them user-defined; the emptiness flag is written
only when switching to Cube (set to false) and is left unchanged on a switch to
None or CustomMesh; every other field is untouched, and setting the same kind
again changes nothing. -/
theorem C9_set_geometry_type_amended (m : VoxelBlockyModel) (t : GeometryType) :
    (t = m.geometry_type → set_geometry_type m t = m) ∧
    (t ≠ m.geometry_type →
      (set_geometry_type m t).geometry_type = t ∧
      (set_geometry_type m t).id = m.id ∧
      (set_geometry_type m t).name = m.name ∧
      (set_geometry_type m t).material_id = m.material_id ∧
      (set_geometry_type m t).transparency_index = m.transparency_index ∧
      (set_geometry_type m t).color = m.color ∧
      (set_geometry_type m t).cube_tiles = m.cube_tiles ∧
      (set_geometry_type m t).custom_mesh = m.custom_mesh ∧
      (set_geometry_type m t).collision_mask = m.collision_mask ∧
      (set_geometry_type m t).random_tickable = m.random_tickable ∧
      (t = .GEOMETRY_NONE → (set_geometry_type m t).collision_aabbs = [] ∧
        (set_geometry_type m t).empty = m.empty) ∧
      (t = .GEOMETRY_CUBE → (set_geometry_type m t).collision_aabbs =
        [⟨⟨0, 0, 0⟩, ⟨1, 1, 1⟩⟩] ∧ (set_geometry_type m t).empty = false) ∧
      (t = .GEOMETRY_CUSTOM_MESH → (set_geometry_type m t).collision_aabbs =
        m.collision_aabbs ∧ (set_geometry_type m t).empty = m.empty)) := by
  constructor
  · intro ht
    unfold set_geometry_type
    rw [if_pos ht]
  · intro ht
    unfold set_geometry_type
    rw [if_neg ht]
    rcases t with - | - | -
    · exact ⟨rfl, rfl, rfl, rfl, rfl, rfl, rfl, rfl, rfl, rfl,
        fun _ => ⟨rfl, rfl⟩, fun hx => absurd hx (by decide),
        fun hx => absurd hx (by decide)⟩
    · exact ⟨rfl, rfl, rfl, rfl, rfl, rfl, rfl, rfl, rfl, rfl,
        fun hx => absurd hx (by decide), fun _ => ⟨rfl, rfl⟩,
        fun hx => absurd hx (by decide)⟩
    · exact ⟨rfl, rfl, rfl, rfl, rfl, rfl, rfl, rfl, rfl, rfl,
        fun hx => absurd hx (by decide), fun hx => absurd hx (by decide),
        fun _ => ⟨rfl, rfl⟩⟩

/-- Witness for C9 (amended): switching the concrete cube model to CustomMesh
keeps its collision boxes and emptiness flag. -/
theorem C9_witness :
    (set_geometry_type c9Model .GEOMETRY_CUSTOM_MESH).collision_aabbs =
      c9Model.collision_aabbs ∧
    (set_geometry_type c9Model .GEOMETRY_CUSTOM_MESH).empty = c9Model.empty := by
  have h := (C9_set_geometry_type_amended c9Model .GEOMETRY_CUSTOM_MESH).2 (by decide)
  exact h.2.2.2.2.2.2.2.2.2.2.2.2 rfl

/-- C10: For every model definition and every boolean p_subresources,
duplicate(p_subresources) returns a copy whose id is reset to the unassigned
sentinel -1 (regardless of the original's assigned id), while name, material id,
transparency index, color, geometry type, cube tiles, collision boxes,
random-tickable flag and emptiness flag equal the original's; the custom mesh
reference is shared when p_subresources is false and deep-copied (via the
external mesh duplication `dup`) when it is true and the reference is valid. -/
theorem C10_duplicate_fields (dup : Mesh → Mesh) (m : VoxelBlockyModel) (p : Bool) :
    (duplicate dup m p).id = -1 ∧
    (duplicate dup m p).name = m.name ∧
    (duplicate dup m p).material_id = m.material_id ∧
    (duplicate dup m p).transparency_index = m.transparency_index ∧
    (duplicate dup m p).color = m.color ∧
    (duplicate dup m p).geometry_type = m.geometry_type ∧
    (duplicate dup m p).cube_tiles = m.cube_tiles ∧
    (duplicate dup m p).collision_aabbs = m.collision_aabbs ∧
    (duplicate dup m p).random_tickable = m.random_tickable ∧
    (duplicate dup m p).empty = m.empty ∧
    (duplicate dup m p).custom_mesh =
      (if p = true ∧ m.custom_mesh.isSome = true then m.custom_mesh.map dup
       else m.custom_mesh) := by
  rcases p with - | -
  · exact ⟨rfl, rfl, rfl, rfl, rfl, rfl, rfl, rfl, rfl, rfl, by simp [duplicate]⟩
  · rcases hcm : m.custom_mesh with - | mesh <;>
      refine ⟨?_, ?_, ?_, ?_, ?_, ?_, ?_, ?_, ?_, ?_, ?_⟩ <;>
      simp [duplicate, hcm]

end zylann.voxel
